import Mathlib

/-!
# Lunobot: session registry, callback router and auto-close scheduler

A shallow embedding of the conversational-state and scheduling core of the bot
(`handlers/handlers.go`, `services/scheduler_service.go`, `models/models.go`,
`database/database.go`).

Conventions of the embedding.

* An instant (`time.Time`) is an integer count of nanoseconds; `time.Now()` is an
  explicit argument of every function that reads the clock.
* `t.After(u)` is the strict comparison `u < t`.
* The map `userStates map[int64]*UserState` is a partial function from user
  identity to session. Every critical section guarded by `stateMutex` is one
  atomic function on that map.
* A Go string is a Lean `String`; `strings.HasPrefix` and `strings.Split` act on
  its character list.
-/

namespace Lunobot

/-! ## Session registry (`handlers/handlers.go`) -/

/-- The Go constant `time.Minute`, in nanoseconds. -/
def Minute : Int := 60 * 1000000000

/-- The Go method `Time.After`: `after t u` is `t.After(u)`. -/
def after (t u : Int) : Bool := decide (u < t)

/-- The Go struct `UserState`: state tag, payload bag and absolute expiry. -/
structure UserState where
  State : String
  Data : List (String × String)
  Expires : Int
deriving DecidableEq, Repr

/-- The field `userStates map[int64]*UserState` of `BotHandlers`. -/
abbrev UserStates := Int → Option UserState

/-- The map built by `make(map[int64]*UserState)` in `NewBotHandlers`. -/
def emptyStates : UserStates := fun _ => none

/-- Go map assignment `m[k] = v`. -/
def mapStore (m : UserStates) (k : Int) (v : UserState) : UserStates :=
  fun j => if j = k then some v else m j

/-- Go builtin `delete(m, k)`. -/
def mapDelete (m : UserStates) (k : Int) : UserStates :=
  fun j => if j = k then none else m j

/-- The method `setUserState`, run while the clock reads `now`. -/
def setUserState (m : UserStates) (now : Int) (userID : Int) (state : String)
    (data : List (String × String)) : UserStates :=
  mapStore m userID { State := state, Data := data, Expires := now + 10 * Minute }

/-- The method `getUserState`, run while the clock reads `now`. -/
def getUserState (m : UserStates) (now : Int) (userID : Int) : Option UserState :=
  match m userID with
  | none => none
  | some state => if after now state.Expires then none else some state

/-- The method `clearUserState`. -/
def clearUserState (m : UserStates) (userID : Int) : UserStates :=
  mapDelete m userID

/-- One iteration of the loop body of `cleanupExpiredStates`, at clock reading `now`:
every entry with `now.After(state.Expires)` is deleted. -/
def cleanupPass (m : UserStates) (now : Int) : UserStates :=
  fun userID =>
    match m userID with
    | none => none
    | some state => if after now state.Expires then none else some state

/-- The method `cleanupExpiredStates`: one pass per tick received from the ticker,
`ticks` being the clock readings of the successive passes. -/
def cleanupExpiredStates (m : UserStates) (ticks : List Int) : UserStates :=
  ticks.foldl cleanupPass m

/-! ### Sample registry used by the concrete checks -/

/-- A session created at instant `0` with tag `waiting_idea`. -/
def sampleSession : UserState :=
  { State := "waiting_idea", Data := [], Expires := 600000000000 }

/-- The registry holding `sampleSession` for user `7` and nothing else. -/
def sampleStates : UserStates := setUserState emptyStates 0 7 "waiting_idea" []

/-! ## Authorization tiers and users (`models/models.go`) -/

/-- The Go type `Rights` (an `int`). -/
abbrev Rights := Int

def RightsDefault : Rights := 1
def RightsManager : Rights := 2
def RightsAdmin : Rights := 3

/-- The Go struct `User` (timestamps left out). -/
structure User where
  ID : Int
  TelegramID : Int
  Username : String
  FirstName : String
  LastName : String
  Rights : Rights
  Language : String
  NotificationsEnabled : Bool
deriving DecidableEq, Repr

/-- The method `User.HasRights`. -/
def User.HasRights (u : User) (required : Lunobot.Rights) : Bool :=
  decide (u.Rights ≥ required)

/-! ## Callback router (`handlers/handlers.go`) -/

/-- The Go function `strings.HasPrefix`. -/
def HasPrefix (s p : String) : Bool := p.data.isPrefixOf s.data

/-- The fields of `tgbotapi.CallbackQuery` that `routeCallback` reads. -/
structure CallbackQuery where
  Data : String
  FromID : Int
  ChatID : Int
  MessageID : Int
deriving DecidableEq, Repr

/-- A statement executed by one arm of the `switch` in `routeCallback`: the call of
a handler with its arguments (the `user` argument, common to all, left out). The
constructor `sendMessageT chatID key` is `h.sendMessage(chatID, h.t(key, user))`. -/
inductive Call where
  | handleLanguageSelection (data : String) (chatID messageID : Int)
  | handleChangeLanguage (chatID messageID : Int)
  | handleCheckStatus (chatID messageID : Int)
  | handleSendIdea (userID chatID messageID : Int)
  | handleNotifications (chatID messageID : Int)
  | handleNotificationsToggle (chatID messageID : Int)
  | handleSetOpenStatus (chatID messageID : Int)
  | handleSetTechStatus (chatID messageID : Int)
  | handleReadIdeas (chatID messageID : Int)
  | handleSetRights (chatID messageID : Int)
  | handleCreateBroadcast (userID chatID messageID : Int)
  | handleAutoCloseSettings (chatID messageID : Int)
  | handleAutoCloseToggle (chatID messageID : Int)
  | handleAutoCloseTimePrompt (userID chatID messageID : Int)
  | handleAutoCloseKeysSelect (chatID messageID : Int)
  | handleAutoCloseKeysUpdate (data : String) (chatID messageID : Int)
  | sendMainMenu (chatID : Int)
  | deleteMessage (chatID messageID : Int)
  | handleOpenStatusUpdate (data : String) (chatID messageID : Int)
  | handleTechStatusUpdate (data : String) (chatID messageID : Int)
  | handleRightsSelection (data : String) (userID chatID messageID : Int)
  | handleIdeaAction (data : String) (callback : CallbackQuery)
  | sendMessageT (chatID : Int) (key : String)
deriving DecidableEq, Repr

/-- The method `routeCallback`: the statements run by the first arm of the `switch`
whose condition holds, the arms tried in source order. -/
def routeCallback (callback : CallbackQuery) (user : User) : List Call :=
  let data := callback.Data
  let chatID := callback.ChatID
  let messageID := callback.MessageID
  if HasPrefix data "lang_" then
    [.handleLanguageSelection data chatID messageID]
  else if data = "change_language" then
    [.handleChangeLanguage chatID messageID]
  else if data = "check_status" then
    [.handleCheckStatus chatID messageID]
  else if data = "send_idea" then
    [.handleSendIdea callback.FromID chatID messageID]
  else if data = "notifications" then
    [.handleNotifications chatID messageID]
  else if data = "notifications_toggle" then
    [.handleNotificationsToggle chatID messageID]
  else if data = "set_open_status" ∧ user.HasRights RightsManager then
    [.handleSetOpenStatus chatID messageID]
  else if data = "set_tech_status" ∧ user.HasRights RightsManager then
    [.handleSetTechStatus chatID messageID]
  else if data = "read_ideas" ∧ user.HasRights RightsAdmin then
    [.handleReadIdeas chatID messageID]
  else if data = "set_rights" ∧ user.HasRights RightsAdmin then
    [.handleSetRights chatID messageID]
  else if data = "create_broadcast" ∧ user.HasRights RightsAdmin then
    [.handleCreateBroadcast callback.FromID chatID messageID]
  else if data = "auto_close" ∧ user.HasRights RightsAdmin then
    [.handleAutoCloseSettings chatID messageID]
  else if data = "auto_close_toggle" ∧ user.HasRights RightsAdmin then
    [.handleAutoCloseToggle chatID messageID]
  else if data = "auto_close_time" ∧ user.HasRights RightsAdmin then
    [.handleAutoCloseTimePrompt callback.FromID chatID messageID]
  else if data = "auto_close_keys" ∧ user.HasRights RightsAdmin then
    [.handleAutoCloseKeysSelect chatID messageID]
  else if HasPrefix data "autoclose_keys_" ∧ user.HasRights RightsAdmin then
    [.handleAutoCloseKeysUpdate data chatID messageID]
  else if data = "back_to_menu" then
    [.sendMainMenu chatID, .deleteMessage chatID messageID]
  else if HasPrefix data "open_" ∧ user.HasRights RightsManager then
    [.handleOpenStatusUpdate data chatID messageID]
  else if HasPrefix data "tech_" ∧ user.HasRights RightsManager then
    [.handleTechStatusUpdate data chatID messageID]
  else if HasPrefix data "rights_" ∧ user.HasRights RightsAdmin then
    [.handleRightsSelection data callback.FromID chatID messageID]
  else if HasPrefix data "idea_" ∧ user.HasRights RightsAdmin then
    [.handleIdeaAction data callback]
  else
    [.sendMessageT chatID "error_unknown_command"]

/-! ### The routing table as the specification words it -/

/-- A payload pattern of the routing table: exact match or leading-text match. -/
inductive Pattern where
  | equals (s : String)
  | startsWith (s : String)
deriving DecidableEq, Repr

/-- Whether a payload matches a pattern. -/
def Pattern.matchesData (p : Pattern) (data : String) : Bool :=
  match p with
  | .equals s => decide (data = s)
  | .startsWith s => HasPrefix data s

/-- A rule of the routing table: pattern, minimum tier, handler invocation. -/
structure Rule where
  pattern : Pattern
  required : Rights
  handler : CallbackQuery → List Call

/-- The gated rules, as the specification lists them: Manager for status mutation,
Admin for idea review, rights management, broadcast and auto-close configuration. -/
def gatedRules : List Rule :=
  [ ⟨.equals "set_open_status", RightsManager,
      fun c => [.handleSetOpenStatus c.ChatID c.MessageID]⟩,
    ⟨.equals "set_tech_status", RightsManager,
      fun c => [.handleSetTechStatus c.ChatID c.MessageID]⟩,
    ⟨.startsWith "open_", RightsManager,
      fun c => [.handleOpenStatusUpdate c.Data c.ChatID c.MessageID]⟩,
    ⟨.startsWith "tech_", RightsManager,
      fun c => [.handleTechStatusUpdate c.Data c.ChatID c.MessageID]⟩,
    ⟨.equals "read_ideas", RightsAdmin,
      fun c => [.handleReadIdeas c.ChatID c.MessageID]⟩,
    ⟨.startsWith "idea_", RightsAdmin,
      fun c => [.handleIdeaAction c.Data c]⟩,
    ⟨.equals "set_rights", RightsAdmin,
      fun c => [.handleSetRights c.ChatID c.MessageID]⟩,
    ⟨.startsWith "rights_", RightsAdmin,
      fun c => [.handleRightsSelection c.Data c.FromID c.ChatID c.MessageID]⟩,
    ⟨.equals "create_broadcast", RightsAdmin,
      fun c => [.handleCreateBroadcast c.FromID c.ChatID c.MessageID]⟩,
    ⟨.equals "auto_close", RightsAdmin,
      fun c => [.handleAutoCloseSettings c.ChatID c.MessageID]⟩,
    ⟨.equals "auto_close_toggle", RightsAdmin,
      fun c => [.handleAutoCloseToggle c.ChatID c.MessageID]⟩,
    ⟨.equals "auto_close_time", RightsAdmin,
      fun c => [.handleAutoCloseTimePrompt c.FromID c.ChatID c.MessageID]⟩,
    ⟨.equals "auto_close_keys", RightsAdmin,
      fun c => [.handleAutoCloseKeysSelect c.ChatID c.MessageID]⟩,
    ⟨.startsWith "autoclose_keys_", RightsAdmin,
      fun c => [.handleAutoCloseKeysUpdate c.Data c.ChatID c.MessageID]⟩ ]

/-- The ungated rules, as the specification lists them: status viewing, idea
submission, notification viewing and toggling, language change. -/
def openRules : List Rule :=
  [ ⟨.equals "check_status", RightsDefault,
      fun c => [.handleCheckStatus c.ChatID c.MessageID]⟩,
    ⟨.equals "send_idea", RightsDefault,
      fun c => [.handleSendIdea c.FromID c.ChatID c.MessageID]⟩,
    ⟨.equals "notifications", RightsDefault,
      fun c => [.handleNotifications c.ChatID c.MessageID]⟩,
    ⟨.equals "notifications_toggle", RightsDefault,
      fun c => [.handleNotificationsToggle c.ChatID c.MessageID]⟩,
    ⟨.equals "change_language", RightsDefault,
      fun c => [.handleChangeLanguage c.ChatID c.MessageID]⟩,
    ⟨.startsWith "lang_", RightsDefault,
      fun c => [.handleLanguageSelection c.Data c.ChatID c.MessageID]⟩ ]

/-- The reply of the `default` arm: the localized unknown-command text, and nothing else. -/
def unknownReply (c : CallbackQuery) : List Call :=
  [.sendMessageT c.ChatID "error_unknown_command"]

/-- A Default-tier user, used by the concrete checks. -/
def sampleUser : User :=
  { ID := 1, TelegramID := 7, Username := "ann", FirstName := "Ann", LastName := "",
    Rights := RightsDefault, Language := "en", NotificationsEnabled := false }

/-! ## Persistent singletons (`models/models.go`, `database/database.go`) -/

/-- The Go struct `Status`; `UpdatedAt` is an instant in nanoseconds. -/
structure Status where
  ID : Int
  IsOpen : Bool
  TechnicalStatus : Bool
  UpdatedAt : Int
  UpdatedBy : String
deriving DecidableEq, Repr

/-- The Go struct `AutoCloseSettings`. -/
structure AutoCloseSettings where
  ID : Int
  Enabled : Bool
  CloseTime : String
  KeysToLobby : Bool
  LastStatusBy : String
deriving DecidableEq, Repr

/-- The Go struct `Idea`; `CreatedAt` is an instant in nanoseconds. -/
structure Idea where
  ID : Int
  UserID : Int
  Username : String
  Content : String
  CreatedAt : Int
deriving DecidableEq, Repr

/-- The store behind `database.DB`: the singleton rows `status WHERE id = 1` and
`auto_close_settings WHERE id = 1`, the tables `users` and `ideas` in row order, and
the entry of `sqlite_sequence` for `ideas` (the largest id `AUTOINCREMENT` has given
out so far, `0` before the first insert). -/
structure DB where
  status : Status
  settings : AutoCloseSettings
  users : List User := []
  ideas : List Idea := []
  ideaSeq : Int := 0
deriving DecidableEq, Repr

/-- Which store calls of one scheduler tick come back with `err != nil`. -/
structure Faults where
  getAutoCloseSettings : Bool
  getStatus : Bool
  updateOpenStatusAuto : Bool
deriving DecidableEq, Repr

/-- A tick in which every store call succeeds. -/
def noFaults : Faults :=
  { getAutoCloseSettings := false, getStatus := false, updateOpenStatusAuto := false }

/-- A reading of `time.Now()`: the instant, and the hour and minute of its local
wall-clock rendering. -/
structure Time where
  Nanos : Int
  Hour : Nat
  Minute : Nat
deriving DecidableEq, Repr

/-- Everything outside the store that one tick observes: the clock reading taken in
`checkAndExecute`, the later reading taken inside `UpdateOpenStatusAuto`, and the
outcomes of the store calls. -/
structure TickEnv where
  now : Time
  writeNow : Time
  faults : Faults
deriving DecidableEq, Repr

/-- The method `DB.GetAutoCloseSettings`; `none` is the `err != nil` return. -/
def DB.GetAutoCloseSettings (db : DB) (f : Faults) : Option AutoCloseSettings :=
  if f.getAutoCloseSettings then none else some db.settings

/-- The method `DB.GetStatus` (reached through `StatusService.GetStatus`); `none` is
the `err != nil` return. -/
def DB.GetStatus (db : DB) (f : Faults) : Option Status :=
  if f.getStatus then none else some db.status

/-- The method `DB.UpdateOpenStatusAuto`: one `UPDATE status SET is_open = ?,
technical_status = ?, updated_at = ?, updated_by = ? WHERE id = 1` with the
arguments `isOpen, !keysToLobby, time.Now(), updatedBy`. `none` is the `err != nil`
return, in which case the statement changed no row. -/
def DB.UpdateOpenStatusAuto (db : DB) (f : Faults) (now : Time) (isOpen keysToLobby : Bool)
    (updatedBy : String) : Option DB :=
  if f.updateOpenStatusAuto then none
  else some { db with status :=
    { db.status with
      IsOpen := isOpen, TechnicalStatus := !keysToLobby,
      UpdatedAt := now.Nanos, UpdatedBy := updatedBy } }

/-! ## Auto-close scheduler (`services/scheduler_service.go`) -/

/-- What a tick does to the outside world, in order: store calls and log lines. -/
inductive Op where
  | getAutoCloseSettings
  | getStatus
  | updateOpenStatusAuto (isOpen keysToLobby : Bool) (updatedBy : String)
  | logSettingsError
  | logTriggered (currentTime : String)
  | logStatusError
  | logUpdateError
  | logExecuted (updatedBy : String) (keysToLobby : Bool)
deriving DecidableEq, Repr

/-- A log line that reports a failed store call. -/
def Op.isErrorLog : Op → Bool
  | .logSettingsError => true
  | .logStatusError => true
  | .logUpdateError => true
  | _ => false

/-- A write to the `status` row. -/
def Op.isStatusWrite : Op → Bool
  | .updateOpenStatusAuto _ _ _ => true
  | _ => false

/-- A read of the `status` row. -/
def Op.isStatusRead : Op → Bool
  | .getStatus => true
  | _ => false

/-- The decimal digit `d` as a character. -/
def digitChar (d : Nat) : Char := Char.ofNat (48 + d % 10)

/-- The layout `15:04` of `Time.Format`: two-digit hour, colon, two-digit minute. -/
def Time.Format1504 (t : Time) : String :=
  String.mk [digitChar (t.Hour / 10), digitChar t.Hour, ':',
             digitChar (t.Minute / 10), digitChar t.Minute]

/-- Splitting a character list at every occurrence of `sep`. -/
def splitChars (sep : Char) : List Char → List (List Char)
  | [] => [[]]
  | c :: cs =>
    if c = sep then [] :: splitChars sep cs
    else
      match splitChars sep cs with
      | [] => [[c]]
      | p :: ps => (c :: p) :: ps

/-- Joining parts with `sep` between them (`strings.Join` for a one-character
separator), the inverse of `splitChars`. -/
def joinChars (sep : Char) : List (List Char) → List Char
  | [] => []
  | [p] => p
  | p :: q :: r => p ++ sep :: joinChars sep (q :: r)

/-- The Go function `strings.Split` for a one-character separator. -/
def Split (s : String) (sep : Char) : List String :=
  (splitChars sep s.data).map String.mk

/-- The method `timeMatches`. -/
def timeMatches (current target : String) : Bool :=
  let currentParts := Split current ':'
  let targetParts := Split target ':'
  if currentParts.length ≠ 2 ∨ targetParts.length ≠ 2 then false
  else decide (currentParts[0]? = targetParts[0]?) && decide (currentParts[1]? = targetParts[1]?)

/-- The Go struct `SchedulerService`: the store it points to and whether `stopChan`
has been closed. (`statusService` wraps the same store; `broadcastService` is not
used by a tick.) -/
structure SchedulerService where
  db : DB
  stopChanClosed : Bool
deriving DecidableEq, Repr

/-- The function `NewSchedulerService`. -/
def NewSchedulerService (db : DB) : SchedulerService :=
  { db := db, stopChanClosed := false }

/-- The method `executeAutoClose`: the scheduler afterwards and the operations done. -/
def SchedulerService.executeAutoClose (s : SchedulerService) (env : TickEnv)
    (settings : AutoCloseSettings) : SchedulerService × List Op :=
  match s.db.GetStatus env.faults with
  | none => (s, [.getStatus, .logStatusError])
  | some status =>
    if !status.IsOpen then (s, [.getStatus])
    else
      let updatedBy := if settings.LastStatusBy = "" then "auto-close" else settings.LastStatusBy
      match s.db.UpdateOpenStatusAuto env.faults env.writeNow false settings.KeysToLobby
          updatedBy with
      | none =>
        (s, [.getStatus, .updateOpenStatusAuto false settings.KeysToLobby updatedBy,
             .logUpdateError])
      | some db' =>
        ({ s with db := db' },
          [.getStatus, .updateOpenStatusAuto false settings.KeysToLobby updatedBy,
           .logExecuted updatedBy settings.KeysToLobby])

/-- The method `checkAndExecute` (one scheduler tick). -/
def SchedulerService.checkAndExecute (s : SchedulerService) (env : TickEnv) :
    SchedulerService × List Op :=
  match s.db.GetAutoCloseSettings env.faults with
  | none => (s, [.getAutoCloseSettings, .logSettingsError])
  | some settings =>
    if !settings.Enabled then (s, [.getAutoCloseSettings])
    else
      let currentTime := env.now.Format1504
      if timeMatches currentTime settings.CloseTime then
        let r := s.executeAutoClose env settings
        (r.1, [.getAutoCloseSettings, .logTriggered currentTime] ++ r.2)
      else (s, [.getAutoCloseSettings])

/-- The shape `HH:MM` of a wall-clock rendering: two digits, a colon, two digits. -/
def isHHMM (s : String) : Bool :=
  match s.data with
  | [a, b, c, d, e] => a.isDigit && b.isDigit && decide (c = ':') && d.isDigit && e.isDigit
  | _ => false

/-! ### Sample store used by the concrete checks -/

/-- Status open, as after a manual opening. -/
def sampleStatus : Status :=
  { ID := 1, IsOpen := true, TechnicalStatus := true, UpdatedAt := 0, UpdatedBy := "@ann" }

/-- Auto-close enabled for 22:00, keys to the admin, no recorded last actor. -/
def sampleSettings : AutoCloseSettings :=
  { ID := 1, Enabled := true, CloseTime := "22:00", KeysToLobby := false, LastStatusBy := "" }

/-- The store holding `sampleStatus` and `sampleSettings`. -/
def sampleDB : DB := { status := sampleStatus, settings := sampleSettings }

/-- A tick at 22:00 local time with every store call succeeding. -/
def sampleEnv : TickEnv :=
  { now := { Nanos := 1000, Hour := 22, Minute := 0 },
    writeNow := { Nanos := 1005, Hour := 22, Minute := 0 },
    faults := noFaults }

/-- The tick of `sampleEnv`, except that the Status write comes back with an error. -/
def failedWriteEnv : TickEnv :=
  { sampleEnv with faults := { noFaults with updateOpenStatusAuto := true } }

/-- The tick of `sampleEnv`, except that the Status read comes back with an error. -/
def failedReadEnv : TickEnv :=
  { sampleEnv with faults := { noFaults with getStatus := true } }

/-- A later tick in the same minute as `sampleEnv` (30 seconds on). -/
def sampleEnvLater : TickEnv :=
  { now := { Nanos := 30000001000, Hour := 22, Minute := 0 },
    writeNow := { Nanos := 30000001005, Hour := 22, Minute := 0 },
    faults := noFaults }

/-- The store of `sampleDB` with auto-close switched off. -/
def disabledDB : DB :=
  { sampleDB with settings := { sampleSettings with Enabled := false } }

/-- A callback carrying the gated payload `open_true`. -/
def sampleCallback : CallbackQuery :=
  { Data := "open_true", FromID := 7, ChatID := 70, MessageID := 3 }

/-- A callback carrying the ungated payload `check_status`. -/
def sampleStatusCallback : CallbackQuery :=
  { Data := "check_status", FromID := 7, ChatID := 70, MessageID := 3 }

/-! ## String helpers of the Go standard library -/

/-- The Go builtin `len` on a string: its length in bytes of UTF-8. -/
def len (s : String) : Nat := s.utf8ByteSize

/-- The Go function `strings.TrimPrefix`: `s` without the leading `p`, if it has it. -/
def TrimPrefix (s p : String) : String :=
  if HasPrefix s p then String.mk (s.data.drop p.data.length) else s

/-- The Go predicate `unicode.IsSpace`. -/
def isSpace (c : Char) : Bool :=
  decide (c.toNat ∈ [0x09, 0x0A, 0x0B, 0x0C, 0x0D, 0x20, 0x85, 0xA0, 0x1680, 0x2028, 0x2029,
    0x202F, 0x205F, 0x3000]) || (decide (0x2000 ≤ c.toNat) && decide (c.toNat ≤ 0x200A))

/-- The Go function `strings.TrimSpace`: leading and trailing white space removed. -/
def TrimSpace (s : String) : String :=
  String.mk ((s.data.dropWhile isSpace).reverse.dropWhile isSpace).reverse

/-- Reading a run of ASCII decimal digits, most significant first, onto `acc`. -/
def parseDigits : List Char → Nat → Option Nat
  | [], acc => some acc
  | c :: cs, acc => if c.isDigit then parseDigits cs (acc * 10 + (c.toNat - 48)) else none

/-- The Go function `strconv.Atoi` on a 64-bit platform: an optional sign followed by
one or more ASCII digits, read in base 10; `none` is the `err != nil` return (empty
or malformed text, or a value outside the range of `int`). -/
def Atoi (s : String) : Option Int :=
  match s.data with
  | [] => none
  | '-' :: ds =>
    if ds = [] then none
    else match parseDigits ds 0 with
      | none => none
      | some n => if n ≤ 2 ^ 63 then some (-(n : Int)) else none
  | '+' :: ds =>
    if ds = [] then none
    else match parseDigits ds 0 with
      | none => none
      | some n => if n < 2 ^ 63 then some (n : Int) else none
  | ds =>
    match parseDigits ds 0 with
    | none => none
    | some n => if n < 2 ^ 63 then some (n : Int) else none

/-- Folding the 26 ASCII capitals to lower case, as SQLite's `NOCASE` collation does. -/
def asciiLower (c : Char) : Char :=
  if 65 ≤ c.toNat ∧ c.toNat ≤ 90 then Char.ofNat (c.toNat + 32) else c

/-- Equality of two texts under `COLLATE NOCASE`. -/
def eqNoCase (a b : String) : Bool :=
  decide (a.data.map asciiLower = b.data.map asciiLower)

/-! ## Time validation (`handlers/handlers.go`) -/

/-- The method `isValidTimeFormat`. The two parts are taken by pattern, which is the
length test `len(parts) != 2` followed by `parts[0]` and `parts[1]`. -/
def isValidTimeFormat (timeStr : String) : Bool :=
  match Split timeStr ':' with
  | [p0, p1] =>
    match Atoi p0 with
    | none => false
    | some hours =>
      if hours < 0 ∨ hours > 23 then false
      else
        match Atoi p1 with
        | none => false
        | some minutes => if minutes < 0 ∨ minutes > 59 then false else true
  | _ => false

/-! ## Errors, ideas and the store methods the handlers use -/

/-- The error values the handlers tell apart: the sentinels of `models/models.go`, the
two errors of `Idea.Validate`, and a failure `io msg` of the database driver. -/
inductive Err where
  | ErrUserNotFound
  | ErrIdeaNotFound
  | ErrInvalidRights
  | contentEmpty
  | contentTooLong
  | io (msg : String)
deriving DecidableEq, Repr

/-- The method `error.Error`. -/
def Err.Error : Err → String
  | .ErrUserNotFound => "user not found"
  | .ErrIdeaNotFound => "idea not found"
  | .ErrInvalidRights => "invalid rights level"
  | .contentEmpty => "idea content cannot be empty"
  | .contentTooLong => "idea content too long"
  | .io msg => msg

/-- The method `Rights.IsValid`. -/
def Rights.IsValid (r : Rights) : Bool :=
  decide (r ≥ RightsDefault) && decide (r ≤ RightsAdmin)

/-- The method `User.GetDisplayName`. -/
def User.GetDisplayName (u : User) : String :=
  if u.Username ≠ "" then "@" ++ u.Username
  else if u.LastName ≠ "" then u.FirstName ++ " " ++ u.LastName
  else u.FirstName

/-- The method `Idea.Validate`; `none` is the `nil` return. -/
def Idea.Validate (i : Idea) : Option Err :=
  if i.Content = "" then some .contentEmpty
  else if len i.Content > 4000 then some .contentTooLong
  else none

/-- Which store calls of one handler run come back with a driver error, and with
what message. For the three queries that read their rows in a `for rows.Next()` loop
there is a second way to fail: `...Step = some n` says that stepping to row `n + 1`
fails, which ends the loop like the end of the rows does. -/
structure StoreFaults where
  getUserByTelegramID : Option String := none
  createUser : Option String := none
  updateUser : Option String := none
  addIdea : Option String := none
  getUserByUsername : Option String := none
  updateUserRightsByUsername : Option String := none
  getAllAdmins : Option String := none
  getAutoCloseSettings : Option String := none
  updateAutoCloseSettings : Option String := none
  updateOpenStatus : Option String := none
  updateTechnicalStatus : Option String := none
  updateAutoCloseLastUser : Option String := none
  getAllIdeas : Option String := none
  updateUserRights : Option String := none
  updateUserLanguage : Option String := none
  getAllAdminsStep : Option Nat := none
  getAllIdeasStep : Option Nat := none
  getUsersWithNotifications : Option String := none
  getUsersWithNotificationsStep : Option Nat := none
deriving DecidableEq, Repr

/-- Everything outside the handler state that one handler run observes: the clock
reading used by the session registry, the time stamped on written rows, the outcomes
of the store calls and, per chat, whether `bot.Send` to it fails. -/
structure HandlerEnv where
  now : Int
  stamp : Int
  faults : StoreFaults
  sendFails : Int → Bool

/-- The row id `AUTOINCREMENT` gives to the next idea: one more than the largest id
in the table or ever given out, so that the id of a deleted idea is not used again. -/
def DB.nextIdeaID (db : DB) : Int :=
  max ((db.ideas.map (fun i => i.ID)).foldl max 0) db.ideaSeq + 1

/-- The row id `AUTOINCREMENT` gives to the next user. -/
def DB.nextUserID (db : DB) : Int := (db.users.map (fun u => u.ID)).foldl max 0 + 1

/-- The method `DB.AddIdea`: validation, then one `INSERT INTO ideas`, which the store
refuses when the content breaks the table's `CHECK (length(content) > 0 AND
length(content) <= 4000)` (a count of characters) or when `user_id` is the
`telegram_id` of no row of `users` (the foreign key; the connection is opened with
`_foreign_keys=on`). -/
def DB.AddIdea (db : DB) (env : HandlerEnv) (idea : Idea) : Except Err DB :=
  match idea.Validate with
  | some e => .error e
  | none =>
    match env.faults.addIdea with
    | some msg => .error (.io msg)
    | none =>
      if idea.Content.length = 0 ∨ idea.Content.length > 4000 then
        .error (.io "CHECK constraint failed: length(content) > 0 AND length(content) <= 4000")
      else if !db.users.any (fun u => decide (u.TelegramID = idea.UserID)) then
        .error (.io "FOREIGN KEY constraint failed")
      else
        .ok { db with
          ideas := db.ideas ++ [{ idea with ID := db.nextIdeaID, CreatedAt := env.stamp }],
          ideaSeq := db.nextIdeaID }

/-- The method `IdeaService.AddIdea`. -/
def AddIdea (db : DB) (env : HandlerEnv) (userID : Int) (username content : String) :
    Except Err DB :=
  db.AddIdea env { ID := 0, UserID := userID, Username := username, Content := content,
                   CreatedAt := 0 }

/-- The method `DB.GetUserByTelegramID`. -/
def DB.GetUserByTelegramID (db : DB) (env : HandlerEnv) (telegramID : Int) : Except Err User :=
  match env.faults.getUserByTelegramID with
  | some msg => .error (.io msg)
  | none =>
    match db.users.find? (fun u => decide (u.TelegramID = telegramID)) with
    | none => .error .ErrUserNotFound
    | some u => .ok u

/-- The method `DB.GetUserByUsername`: one leading `@` dropped, then the first row
whose `username` equals the text under `COLLATE NOCASE`. -/
def DB.GetUserByUsername (db : DB) (env : HandlerEnv) (username : String) : Except Err User :=
  let username := TrimPrefix username "@"
  match env.faults.getUserByUsername with
  | some msg => .error (.io msg)
  | none =>
    match db.users.find? (fun u => eqNoCase u.Username username) with
    | none => .error .ErrUserNotFound
    | some u => .ok u

/-- The method `DB.CreateUser`: the language defaults to `ua`, then one `INSERT INTO
users`, which the store refuses when a row with the same `telegram_id` exists (the
column is `UNIQUE`) or when the tier breaks `CHECK (rights >= 1 AND rights <= 3)`.
Returned with the store is the user struct as the caller sees it afterwards. -/
def DB.CreateUser (db : DB) (env : HandlerEnv) (user : User) : Except Err (DB × User) :=
  let user := if user.Language = "" then { user with Language := "ua" } else user
  match env.faults.createUser with
  | some msg => .error (.io msg)
  | none =>
    if db.users.any (fun u => decide (u.TelegramID = user.TelegramID)) then
      .error (.io "UNIQUE constraint failed: users.telegram_id")
    else if !Rights.IsValid user.Rights then
      .error (.io "CHECK constraint failed: rights >= 1 AND rights <= 3")
    else .ok ({ db with users := db.users ++ [{ user with ID := db.nextUserID }] }, user)

/-- The method `DB.UpdateUser`: one `UPDATE users SET username, first_name, last_name
WHERE telegram_id = ?`. -/
def DB.UpdateUser (db : DB) (env : HandlerEnv) (user : User) : Except Err DB :=
  match env.faults.updateUser with
  | some msg => .error (.io msg)
  | none =>
    .ok { db with users := db.users.map (fun u =>
      if u.TelegramID = user.TelegramID then
        { u with Username := user.Username, FirstName := user.FirstName,
                 LastName := user.LastName }
      else u) }

/-- The method `DB.UpdateUserRightsByUsername`: validity of the tier, one leading `@`
dropped, then one `UPDATE users SET rights = ? WHERE username = ? COLLATE NOCASE`;
no row affected is `ErrUserNotFound`. -/
def DB.UpdateUserRightsByUsername (db : DB) (env : HandlerEnv) (username : String)
    (rights : Rights) : Except Err DB :=
  if !Rights.IsValid rights then .error .ErrInvalidRights
  else
    let username := TrimPrefix username "@"
    match env.faults.updateUserRightsByUsername with
    | some msg => .error (.io msg)
    | none =>
      if db.users.any (fun u => eqNoCase u.Username username) then
        .ok { db with users := db.users.map (fun u =>
          if eqNoCase u.Username username then { u with Rights := rights } else u) }
      else .error .ErrUserNotFound

/-- The method `DB.GetAllAdmins`: `SELECT ... FROM users WHERE rights >= ?` with the
argument `models.RightsManager`. An error of `Query` (or of `Scan`) is returned; the
loop `for rows.Next()` also ends when stepping fails, and `rows.Err()` is never read,
so a failure after `n` rows returns those `n` rows with a `nil` error. -/
def DB.GetAllAdmins (db : DB) (env : HandlerEnv) : Except Err (List User) :=
  match env.faults.getAllAdmins with
  | some msg => .error (.io msg)
  | none =>
    match env.faults.getAllAdminsStep with
    | some n => .ok ((db.users.filter (fun u => decide (u.Rights ≥ RightsManager))).take n)
    | none => .ok (db.users.filter (fun u => decide (u.Rights ≥ RightsManager)))

/-- The store-call outcomes of a handler run, as `DB.GetAutoCloseSettings` takes them. -/
def StoreFaults.toFaults (f : StoreFaults) : Faults :=
  { getAutoCloseSettings := f.getAutoCloseSettings.isSome, getStatus := false,
    updateOpenStatusAuto := false }

/-- The method `SchedulerService.GetSettings`, called from a handler. -/
def GetSettings (db : DB) (env : HandlerEnv) : Option AutoCloseSettings :=
  db.GetAutoCloseSettings env.faults.toFaults

/-- The method `DB.UpdateAutoCloseSettings` (behind `SchedulerService.UpdateSettings`):
one `UPDATE auto_close_settings SET enabled, close_time, keys_to_lobby WHERE id = 1`. -/
def DB.UpdateAutoCloseSettings (db : DB) (env : HandlerEnv) (enabled : Bool)
    (closeTime : String) (keysToLobby : Bool) : Except Err DB :=
  match env.faults.updateAutoCloseSettings with
  | some msg => .error (.io msg)
  | none =>
    .ok { db with settings :=
      { db.settings with Enabled := enabled, CloseTime := closeTime, KeysToLobby := keysToLobby } }

/-- The method `DB.UpdateAutoCloseLastUser` (behind `SchedulerService.UpdateLastUser`):
one `UPDATE auto_close_settings SET last_status_by = ? WHERE id = 1`. -/
def DB.UpdateAutoCloseLastUser (db : DB) (env : HandlerEnv) (username : String) :
    Except Err DB :=
  match env.faults.updateAutoCloseLastUser with
  | some msg => .error (.io msg)
  | none => .ok { db with settings := { db.settings with LastStatusBy := username } }

/-- The method `DB.UpdateOpenStatus`: one `UPDATE status SET is_open, technical_status,
updated_at, updated_by WHERE id = 1` with the arguments `isOpen, isOpen, time.Now(),
user.GetDisplayName()`. -/
def DB.UpdateOpenStatus (db : DB) (env : HandlerEnv) (isOpen : Bool) (user : User) :
    Except Err DB :=
  match env.faults.updateOpenStatus with
  | some msg => .error (.io msg)
  | none =>
    .ok { db with status :=
      { db.status with IsOpen := isOpen, TechnicalStatus := isOpen, UpdatedAt := env.stamp,
                       UpdatedBy := user.GetDisplayName } }

/-- The method `DB.UpdateTechnicalStatus`: one `UPDATE status SET technical_status,
updated_at, updated_by WHERE id = 1`. -/
def DB.UpdateTechnicalStatus (db : DB) (env : HandlerEnv) (technicalStatus : Bool)
    (user : User) : Except Err DB :=
  match env.faults.updateTechnicalStatus with
  | some msg => .error (.io msg)
  | none =>
    .ok { db with status :=
      { db.status with TechnicalStatus := technicalStatus, UpdatedAt := env.stamp,
                       UpdatedBy := user.GetDisplayName } }

/-! ## Message handlers (`handlers/handlers.go`, `services/broadcast_service.go`) -/

/-- The fields of `tgbotapi.Message` that the handlers read; `Command` is the result of
`message.Command()` (empty for a message that is not a command). -/
structure Message where
  FromID : Int
  FromUserName : String
  FromFirstName : String
  FromLastName : String
  ChatID : Int
  Text : String
  Command : String
deriving DecidableEq, Repr

/-- An inline keyboard button: its label (a translation key with its parameters, or
a literal) and its callback payload. -/
structure Button where
  TextKey : String
  Params : List (String × String) := []
  Callback : String
deriving DecidableEq, Repr

/-- What a handler sends to the outside world, in order. `sendMessageT chatID key
params` is `h.sendMessage(chatID, h.tParams(key, user, params))` (`h.t` for no
params); `editMessageT` likewise for `h.editMessage`; `botSend chatID text` is one
`bot.Send` of the broadcast loop; the `go...` entries are the detached goroutines.
`editMessageWithKeyboardT` is `h.editMessageWithKeyboard` with a translated text;
`showIdea` is the `editMessageWithKeyboard` of the method `showIdea`, whose text is
`idea_header` filled in from the position `currentIndex + 1`, the total and the
fields of the idea; `indexOutOfRange` is the run-time panic of a slice read outside
its bounds. -/
inductive Out where
  | sendMessage (chatID : Int) (text : String)
  | sendMessageT (chatID : Int) (key : String) (params : List (String × String))
  | editMessageT (chatID messageID : Int) (key : String) (params : List (String × String))
  | sendMainMenu (chatID : Int)
  | sendLanguageSelection (chatID : Int)
  | sendHelpMessage (chatID : Int)
  | botSend (chatID : Int) (text : String)
  | goSendOpenNotification
  | goMenuRefresh (chatID messageID : Int)
  | editMessageWithKeyboardT (chatID messageID : Int) (key : String)
      (params : List (String × String)) (keyboard : List (List Button))
  | showIdea (chatID messageID : Int) (currentIndex total : Int) (idea : Idea)
      (keyboard : List (List Button))
  | deleteMessage (chatID messageID : Int)
  | goAutoCloseSettingsRefresh (chatID messageID : Int)
  | indexOutOfRange
deriving DecidableEq, Repr

/-- The mutable state behind `BotHandlers`: the session registry and the store that
all the services share. -/
structure BotHandlers where
  userStates : UserStates
  db : DB

/-- The loop of `SendBroadcast` over the recipients: the count of successful sends
and the sends attempted. -/
def broadcastLoop (env : HandlerEnv) (message : String) : List User → Nat × List Out
  | [] => (0, [])
  | user :: rest =>
    let r := broadcastLoop env message rest
    (if env.sendFails user.TelegramID then r.1 else r.1 + 1,
      Out.botSend user.TelegramID ("🚨 ALERT: " ++ message) :: r.2)

/-- The method `BroadcastService.SendBroadcast`: the returned count, or the error of
the recipient lookup, and the sends attempted. -/
def SendBroadcast (db : DB) (env : HandlerEnv) (message : String) :
    Except Err Nat × List Out :=
  match db.GetAllAdmins env with
  | .error e => (.error e, [])
  | .ok users => (.ok (broadcastLoop env message users).1, (broadcastLoop env message users).2)

/-- The method `DB.GetUsersWithNotifications`: `SELECT ... FROM users WHERE
notifications_enabled = 1`, with the error returns of `DB.GetAllAdmins`. -/
def DB.GetUsersWithNotifications (db : DB) (env : HandlerEnv) : Except Err (List User) :=
  match env.faults.getUsersWithNotifications with
  | some msg => .error (.io msg)
  | none =>
    match env.faults.getUsersWithNotificationsStep with
    | some n => .ok ((db.users.filter (fun u => u.NotificationsEnabled)).take n)
    | none => .ok (db.users.filter (fun u => u.NotificationsEnabled))

/-- The fixed text of the open announcement. -/
def openAnnouncement : String := "🎉 Лунотека відкрита! 🌙\n\nМожете приходити до нас!"

/-- The loop of `SendOpenNotification` over the recipients: the count of successful
sends and the sends attempted. -/
def openNotificationLoop (env : HandlerEnv) : List User → Nat × List Out
  | [] => (0, [])
  | user :: rest =>
    let r := openNotificationLoop env rest
    (if env.sendFails user.TelegramID then r.1 else r.1 + 1,
      Out.botSend user.TelegramID openAnnouncement :: r.2)

/-- The method `BroadcastService.SendOpenNotification`, which is what the goroutine
recorded as `Out.goSendOpenNotification` runs: the returned count, or the error of the
recipient lookup, and the sends attempted. -/
def SendOpenNotification (db : DB) (env : HandlerEnv) : Except Err Nat × List Out :=
  match db.GetUsersWithNotifications env with
  | .error e => (.error e, [])
  | .ok users => (.ok (openNotificationLoop env users).1, (openNotificationLoop env users).2)

/-- The method `UserService.GetOrCreateUser`: the store afterwards and the user
struct handed to the handler. -/
def GetOrCreateUser (db : DB) (env : HandlerEnv) (telegramID : Int)
    (username firstName lastName : String) : Except Err (DB × User) :=
  match db.GetUserByTelegramID env telegramID with
  | .error .ErrUserNotFound =>
    db.CreateUser env
      { ID := 0, TelegramID := telegramID, Username := username, FirstName := firstName,
        LastName := lastName, Rights := RightsDefault, Language := "",
        NotificationsEnabled := false }
  | .error e => .error e
  | .ok user =>
    if user.Username ≠ username ∨ user.FirstName ≠ firstName ∨ user.LastName ≠ lastName then
      let user := { user with Username := username, FirstName := firstName,
                              LastName := lastName }
      match db.UpdateUser env user with
      | .error e => .error e
      | .ok db' => .ok (db', user)
    else .ok (db, user)

/-- The translation key `getRightsName` looks up for a tier. -/
def getRightsName (rights : Rights) : String :=
  if rights = RightsDefault then "rights_user"
  else if rights = RightsManager then "rights_manager"
  else if rights = RightsAdmin then "rights_admin"
  else "rights_unknown"

/-- The method `handleAutoCloseTimeUpdate`. -/
def handleAutoCloseTimeUpdate (h : BotHandlers) (env : HandlerEnv) (chatID : Int)
    (timeStr : String) : BotHandlers × List Out :=
  if !isValidTimeFormat timeStr then
    (h, [.sendMessageT chatID "auto_close_time_invalid" []])
  else
    match GetSettings h.db env with
    | none => (h, [.sendMessageT chatID "error_generic" []])
    | some settings =>
      match h.db.UpdateAutoCloseSettings env settings.Enabled timeStr settings.KeysToLobby with
      | .error _ => (h, [.sendMessageT chatID "error_generic" []])
      | .ok db' =>
        ({ h with db := db' },
          [.sendMessageT chatID "auto_close_time_updated" [("time", timeStr)],
           .sendMainMenu chatID])

/-- The method `handleUserState`: the continuation of a multi-step flow, chosen by
the state tag of the session. The `user` argument only selects the language of the
replies, which are recorded here by translation key. -/
def handleUserState (h : BotHandlers) (env : HandlerEnv) (message : Message)
    (state : UserState) (_user : User) : BotHandlers × List Out :=
  let chatID := message.ChatID
  let userID := message.FromID
  if state.State = "waiting_idea" then
    if len message.Text > 4000 then
      (h, [.sendMessageT chatID "idea_too_long" []])
    else
      match AddIdea h.db env userID message.FromUserName message.Text with
      | .error e =>
        ({ h with userStates := clearUserState h.userStates userID },
          [.sendMessageT chatID "error_save_idea" [("error", e.Error)], .sendMainMenu chatID])
      | .ok db' =>
        ({ userStates := clearUserState h.userStates userID, db := db' },
          [.sendMessageT chatID "idea_saved" [], .sendMainMenu chatID])
  else if state.State = "waiting_username" then
    match state.Data.lookup "rights" with
    | none =>
      ({ h with userStates := clearUserState h.userStates userID },
        [.sendMessageT chatID "error_data_processing" []])
    | some rightsStr =>
      match Atoi rightsStr with
      | none =>
        ({ h with userStates := clearUserState h.userStates userID },
          [.sendMessageT chatID "error_invalid_rights" []])
      | some rights =>
        if !Rights.IsValid rights then
          ({ h with userStates := clearUserState h.userStates userID },
            [.sendMessageT chatID "error_invalid_rights" []])
        else
          let username := TrimSpace message.Text
          if username = "" then
            (h, [.sendMessageT chatID "error_empty_username" []])
          else
            match h.db.GetUserByUsername env username with
            | .error e =>
              ({ h with userStates := clearUserState h.userStates userID },
                [if e = .ErrUserNotFound then .sendMessageT chatID "user_not_found" []
                 else .sendMessageT chatID "error_find_user" [("error", e.Error)]])
            | .ok targetUser =>
              match h.db.UpdateUserRightsByUsername env username rights with
              | .error e =>
                ({ h with userStates := clearUserState h.userStates userID },
                  [.sendMessageT chatID "error_update_rights" [("error", e.Error)],
                   .sendMainMenu chatID])
              | .ok db' =>
                ({ userStates := clearUserState h.userStates userID, db := db' },
                  [.sendMessageT chatID "rights_updated"
                      [("user", targetUser.GetDisplayName), ("rights", getRightsName rights)],
                   .sendMainMenu chatID])
  else if state.State = "waiting_broadcast" then
    if len message.Text > 4000 then
      (h, [.sendMessageT chatID "idea_too_long" []])
    else
      match SendBroadcast h.db env message.Text with
      | (.error e, sends) =>
        ({ h with userStates := clearUserState h.userStates userID },
          sends ++ [.sendMessageT chatID "error_broadcast" [("error", e.Error)],
                    .sendMainMenu chatID])
      | (.ok sentCount, sends) =>
        ({ h with userStates := clearUserState h.userStates userID },
          sends ++ [.sendMessageT chatID "broadcast_sent" [("count", toString sentCount)],
                    .sendMainMenu chatID])
  else if state.State = "waiting_auto_close_time" then
    let timeStr := TrimSpace message.Text
    let r := handleAutoCloseTimeUpdate
      { h with userStates := clearUserState h.userStates userID } env chatID timeStr
    r
  else (h, [])

/-- The method `handleMessage`. -/
def handleMessage (h : BotHandlers) (env : HandlerEnv) (message : Message) :
    BotHandlers × List Out :=
  match GetOrCreateUser h.db env message.FromID message.FromUserName message.FromFirstName
      message.FromLastName with
  | .error _ =>
    (h, [.sendMessage message.ChatID "❌ An error occurred. Please try again later."])
  | .ok (db', user) =>
    let h := { h with db := db' }
    if message.Command = "start" then
      ({ h with userStates := clearUserState h.userStates message.FromID },
        [.sendLanguageSelection message.ChatID])
    else if message.Command = "help" then
      (h, [.sendHelpMessage message.ChatID])
    else if message.Command = "cancel" then
      ({ h with userStates := clearUserState h.userStates message.FromID },
        [.sendMainMenu message.ChatID])
    else
      match getUserState h.userStates env.now message.FromID with
      | some state => handleUserState h env message state user
      | none => (h, [.sendMainMenu message.ChatID])

/-- The method `handleRightsSelection`. -/
def handleRightsSelection (h : BotHandlers) (env : HandlerEnv) (data : String)
    (userID chatID messageID : Int) : BotHandlers × List Out :=
  let rightsStr := TrimPrefix data "rights_"
  ({ h with userStates :=
      setUserState h.userStates env.now userID "waiting_username" [("rights", rightsStr)] },
    [.editMessageT chatID messageID "rights_username_prompt" []])

/-- The method `handleOpenStatusUpdate`. -/
def handleOpenStatusUpdate (h : BotHandlers) (env : HandlerEnv) (data : String)
    (chatID messageID : Int) (user : User) : BotHandlers × List Out :=
  let isOpen := decide (TrimPrefix data "open_" = "true")
  match h.db.UpdateOpenStatus env isOpen user with
  | .error _ => (h, [.editMessageT chatID messageID "error_update_status" []])
  | .ok db1 =>
    let db2 :=
      match db1.UpdateAutoCloseLastUser env user.GetDisplayName with
      | .error _ => db1
      | .ok db' => db'
    ({ h with db := db2 },
      (if isOpen then
        [.goSendOpenNotification, .editMessageT chatID messageID "status_changed_open" []]
       else [.editMessageT chatID messageID "status_changed_closed" []])
      ++ [.goMenuRefresh chatID messageID])

/-- The method `handleTechStatusUpdate`. -/
def handleTechStatusUpdate (h : BotHandlers) (env : HandlerEnv) (data : String)
    (chatID messageID : Int) (user : User) : BotHandlers × List Out :=
  let techStatus := decide (TrimPrefix data "tech_" = "true")
  match h.db.UpdateTechnicalStatus env techStatus user with
  | .error _ => (h, [.editMessageT chatID messageID "error_update_keys" []])
  | .ok db' =>
    ({ h with db := db' },
      [.editMessageT chatID messageID "status_keys_changed"
          [("location", if techStatus then "keys_location_admin" else "keys_location_lobby")],
       .goMenuRefresh chatID messageID])

/-! ### Sample handler state used by the concrete checks -/

/-- The handler state with `sampleSession` stored for user `7` over `sampleDB`. -/
def sampleHandlers : BotHandlers := { userStates := sampleStates, db := sampleDB }

/-- A handler run at instant `5` in which every store call and every send succeeds. -/
def sampleHandlerEnv : HandlerEnv :=
  { now := 5, stamp := 5, faults := {}, sendFails := fun _ => false }

/-- A message from user `7` without any text (as a photo or sticker arrives). -/
def emptyTextMessage : Message :=
  { FromID := 7, FromUserName := "ann", FromFirstName := "Ann", FromLastName := "",
    ChatID := 70, Text := "", Command := "" }

/-- A text of 2001 Cyrillic letters: 2001 characters, 4002 bytes of UTF-8. -/
def cyrillicText : String := String.mk (List.replicate 2001 'я')

/-- The message from user `7` carrying `cyrillicText`. -/
def cyrillicMessage : Message :=
  { emptyTextMessage with Text := cyrillicText }

/-- A session of user `7` awaiting the broadcast text. -/
def broadcastSession : UserState :=
  { State := "waiting_broadcast", Data := [], Expires := 600000000000 }

/-- The handler state with `broadcastSession` stored for user `7` over `sampleDB`. -/
def broadcastHandlers : BotHandlers :=
  { userStates := mapStore emptyStates 7 broadcastSession, db := sampleDB }

/-- A session of user `7` awaiting the close-time text. -/
def closeTimeSession : UserState :=
  { State := "waiting_auto_close_time", Data := [], Expires := 600000000000 }

/-- The handler state with `closeTimeSession` stored for user `7` over `sampleDB`. -/
def closeTimeHandlers : BotHandlers :=
  { userStates := mapStore emptyStates 7 closeTimeSession, db := sampleDB }

/-- The message from user `7` carrying the valid time `21:30`. -/
def closeTimeMessage : Message :=
  { emptyTextMessage with Text := " 21:30 " }

/-- The run of `sampleHandlerEnv`, except that the settings read comes back with an
error. -/
def settingsReadFailsEnv : HandlerEnv :=
  { sampleHandlerEnv with faults := { getAutoCloseSettings := some "database is locked" } }

/-- A Manager-tier user with handle `bob`. -/
def managerUser : User :=
  { ID := 2, TelegramID := 8, Username := "bob", FirstName := "Bob", LastName := "",
    Rights := RightsManager, Language := "en", NotificationsEnabled := false }

/-- An Admin-tier user with handle `eve`. -/
def adminUser : User :=
  { ID := 3, TelegramID := 9, Username := "eve", FirstName := "Eve", LastName := "",
    Rights := RightsAdmin, Language := "en", NotificationsEnabled := false }

/-- The store of `sampleDB` with three users, one of each tier. -/
def staffDB : DB := { sampleDB with users := [sampleUser, managerUser, adminUser] }

/-- The handler state with `sampleSession` stored for user `7` over `staffDB`, where
user `7` has a row. -/
def ideaHandlers : BotHandlers := { userStates := sampleStates, db := staffDB }

/-- A session of user `9` awaiting the handle to promote to tier `3`. -/
def usernameSession : UserState :=
  { State := "waiting_username", Data := [("rights", "3")], Expires := 600000000000 }

/-- The handler state with `usernameSession` stored for user `9` over `staffDB`. -/
def usernameHandlers : BotHandlers :=
  { userStates := mapStore emptyStates 9 usernameSession, db := staffDB }

/-- A message from the Admin-tier user `9` naming the handle `@BOB`. -/
def usernameMessage : Message :=
  { FromID := 9, FromUserName := "eve", FromFirstName := "Eve", FromLastName := "",
    ChatID := 90, Text := " @BOB ", Command := "" }

/-- The run of `sampleHandlerEnv`, except that the tier update comes back with an
error. -/
def rightsUpdateFailsEnv : HandlerEnv :=
  { sampleHandlerEnv with
    faults := { updateUserRightsByUsername := some "database is locked" } }

/-- The run of `sampleHandlerEnv`, except that the user lookup by Telegram identity
comes back with an error. -/
def userLookupFailsEnv : HandlerEnv :=
  { sampleHandlerEnv with faults := { getUserByTelegramID := some "database is locked" } }

/-- The command `/cancel` sent by user `7`. -/
def cancelMessage : Message :=
  { emptyTextMessage with Text := "/cancel", Command := "cancel" }

/-- A plain text sent by user `7`. -/
def ideaMessage : Message :=
  { emptyTextMessage with Text := "more tea" }

/-! ## Idea pager (`handlers/handlers.go`) -/

/-- Arithmetic on the Go type `int` (64 bits): the result wrapped into the range of
`int`. -/
def wrapInt (x : Int) : Int := (x + 2 ^ 63) % 2 ^ 64 - 2 ^ 63

/-- The two errors of package `strconv`: `ErrSyntax` (here `invalid`) and `ErrRange`
(here `range`). -/
inductive NumError where
  | invalid
  | range
deriving DecidableEq, Repr

/-- The loop of `strconv.ParseUint` in base 10 at 64 bits, from the value `n` read so
far. It stops at the first character that is no digit with `ErrSyntax`, and at the
first digit with which the value would pass `2^64 - 1` with `ErrRange`, whichever
comes first (`n ≥ maxUint64/10 + 1` is the test `n >= cutoff`). -/
def parseUintLoop : List Char → Nat → Except NumError Nat
  | [], n => .ok n
  | c :: cs, n =>
    if !c.isDigit then .error .invalid
    else if n ≥ (2 ^ 64 - 1) / 10 + 1 then .error .range
    else if n * 10 + (c.toNat - 48) > 2 ^ 64 - 1 then .error .range
    else parseUintLoop cs (n * 10 + (c.toNat - 48))

/-- The function `strconv.ParseUint(s, 10, 64)`: the value returned and the error
(`none` is `nil`). The value is `0` with `ErrSyntax` and `2^64 - 1` with `ErrRange`. -/
def ParseUint (ds : List Char) : Nat × Option NumError :=
  if ds = [] then (0, some .invalid)
  else
    match parseUintLoop ds 0 with
    | .ok n => (n, none)
    | .error .invalid => (0, some .invalid)
    | .error .range => (2 ^ 64 - 1, some .range)

/-- The function `strconv.ParseInt(s, 10, 0)` on a 64-bit platform: the value
returned and the error. One leading sign is picked off; a syntax error of `ParseUint`
returns `0`; a magnitude outside the range of `int` (which the value `2^64 - 1` of a
range error of `ParseUint` always is) returns the nearest bound with `ErrRange`. -/
def ParseInt (s : String) : Int × Option NumError :=
  match s.data with
  | [] => (0, some .invalid)
  | c :: cs =>
    let neg := decide (c = '-')
    let ds := if c = '+' ∨ c = '-' then cs else c :: cs
    let un := (ParseUint ds).1
    if (ParseUint ds).2 = some .invalid then (0, some .invalid)
    else if !neg && decide (un ≥ 2 ^ 63) then (2 ^ 63 - 1, some .range)
    else if neg && decide (un > 2 ^ 63) then (-(2 ^ 63), some .range)
    else (if neg then -(un : Int) else (un : Int), none)

/-- The number `strconv.Atoi` returns, which is what a caller that drops the error
reads. `Atoi` is `ParseInt(s, 10, 0)` converted to `int`; its fast path for texts
shorter than 19 bytes returns the same values (the parsed number, or `0` with
`ErrSyntax`). -/
def AtoiValue (s : String) : Int := (ParseInt s).1

/-- The decimal digits of `n`, most significant first, with `fuel` bounding their
number. -/
def natDigitsAux : Nat → Nat → List Char
  | 0, _ => []
  | fuel + 1, n =>
    if n < 10 then [digitChar n] else natDigitsAux fuel (n / 10) ++ [digitChar n]

/-- The decimal rendering of an integer: `strconv.Itoa`, `strconv.FormatInt(_, 10)`
and the verb `%d` of `fmt.Sprintf`. -/
def Itoa (i : Int) : String :=
  if i < 0 then String.mk ('-' :: natDigitsAux (i.natAbs + 1) i.natAbs)
  else String.mk (natDigitsAux (i.natAbs + 1) i.natAbs)

/-- The method `DB.GetAllIdeas`: `SELECT ... FROM ideas ORDER BY created_at DESC`. An
error of `Query` (or of `Scan`) is returned; as in `DB.GetAllAdmins`, `rows.Err()` is
never read, so a stepping failure after `n` rows returns those `n` rows with a `nil`
error. -/
def DB.GetAllIdeas (db : DB) (env : HandlerEnv) : Except Err (List Idea) :=
  match env.faults.getAllIdeas with
  | some msg => .error (.io msg)
  | none =>
    match env.faults.getAllIdeasStep with
    | some n => .ok ((db.ideas.insertionSort (fun a b => b.CreatedAt ≤ a.CreatedAt)).take n)
    | none => .ok (db.ideas.insertionSort (fun a b => b.CreatedAt ≤ a.CreatedAt))

/-- The method `generateIdeaKeyboard`. -/
def generateIdeaKeyboard (currentIndex totalIdeas : Int) (ideaID : Int) : List (List Button) :=
  let navRow : List Button :=
    (if currentIndex > 0 then
      [{ TextKey := "⬅️", Callback := "idea_prev_" ++ Itoa currentIndex }] else [])
    ++ (if currentIndex < totalIdeas - 1 then
      [{ TextKey := "➡️", Callback := "idea_next_" ++ Itoa currentIndex }] else [])
  (if navRow.length > 0 then [navRow] else [])
  ++ [[{ TextKey := "btn_delete_idea", Callback := "idea_delete_" ++ Itoa ideaID }]]
  ++ [[{ TextKey := "btn_back", Callback := "back_to_menu" }]]

/-- The method `showIdea`. The slice read `ideas[currentIndex]` is the lookup
`ideas[currentIndex.toNat]?`; a read outside the slice would be `indexOutOfRange`. -/
def showIdea (chatID messageID : Int) (ideas : List Idea) (currentIndex : Int) : List Out :=
  if currentIndex < 0 ∨ currentIndex ≥ ideas.length then []
  else
    match ideas[currentIndex.toNat]? with
    | none => [.indexOutOfRange]
    | some idea =>
      [.showIdea chatID messageID currentIndex ideas.length idea
        (generateIdeaKeyboard currentIndex ideas.length idea.ID)]

/-- The index `handleIdeaNavigation` computes from the payload: the number after the
`idea_prev_` or `idea_next_` marker, read with its error dropped, minus or plus one;
`0` for a payload with neither marker. -/
def navigationIndex (data : String) : Int :=
  if HasPrefix data "idea_prev_" then
    wrapInt (AtoiValue (TrimPrefix data "idea_prev_") - 1)
  else if HasPrefix data "idea_next_" then
    wrapInt (AtoiValue (TrimPrefix data "idea_next_") + 1)
  else 0

/-- The method `handleIdeaNavigation`. -/
def handleIdeaNavigation (h : BotHandlers) (env : HandlerEnv) (data : String)
    (chatID messageID : Int) : BotHandlers × List Out :=
  match h.db.GetAllIdeas env with
  | .error _ => (h, [.editMessageT chatID messageID "error_get_ideas" []])
  | .ok ideas => (h, showIdea chatID messageID ideas (navigationIndex data))


/-- Two ideas, the newer one first when fetched. -/
def twoIdeasDB : DB :=
  { sampleDB with ideas :=
      [{ ID := 1, UserID := 7, Username := "ann", Content := "more tea", CreatedAt := 10 },
       { ID := 2, UserID := 8, Username := "bob", Content := "longer hours", CreatedAt := 20 }] }

/-- The handler state over `twoIdeasDB` with no session. -/
def pagerHandlers : BotHandlers := { userStates := emptyStates, db := twoIdeasDB }

/-- The Go struct `MenuButton`. -/
structure MenuButton where
  TextKey : String
  Callback : String
deriving DecidableEq, Repr

/-- The map `mg.buttons` as `initializeButtons` fills it: an entry for each of the
three tiers, none for any other value. -/
def menuButtons (rights : Rights) : Option (List MenuButton) :=
  if rights = RightsDefault then
    some [⟨"btn_check_status", "check_status"⟩, ⟨"btn_send_idea", "send_idea"⟩,
          ⟨"btn_notifications", "notifications"⟩, ⟨"btn_language", "change_language"⟩]
  else if rights = RightsManager then
    some [⟨"btn_check_status", "check_status"⟩, ⟨"btn_send_idea", "send_idea"⟩,
          ⟨"btn_notifications", "notifications"⟩, ⟨"btn_language", "change_language"⟩,
          ⟨"btn_set_open_status", "set_open_status"⟩,
          ⟨"btn_set_tech_status", "set_tech_status"⟩]
  else if rights = RightsAdmin then
    some [⟨"btn_check_status", "check_status"⟩, ⟨"btn_send_idea", "send_idea"⟩,
          ⟨"btn_notifications", "notifications"⟩, ⟨"btn_language", "change_language"⟩,
          ⟨"btn_set_open_status", "set_open_status"⟩,
          ⟨"btn_set_tech_status", "set_tech_status"⟩,
          ⟨"btn_read_ideas", "read_ideas"⟩, ⟨"btn_set_rights", "set_rights"⟩,
          ⟨"btn_create_broadcast", "create_broadcast"⟩, ⟨"btn_auto_close", "auto_close"⟩]
  else none

/-- The method `getButtonsForRights`: the entry of the tier, or the Default entry. -/
def getButtonsForRights (rights : Rights) : List MenuButton :=
  match menuButtons rights with
  | some buttons => buttons
  | none => (menuButtons RightsDefault).getD []

/-- The loop of `GenerateKeyboard`: the buttons laid out two to a row. -/
def keyboardRows : List MenuButton → List (List Button)
  | [] => []
  | [a] => [[{ TextKey := a.TextKey, Callback := a.Callback }]]
  | a :: b :: rest =>
    [{ TextKey := a.TextKey, Callback := a.Callback },
     { TextKey := b.TextKey, Callback := b.Callback }] :: keyboardRows rest

/-- The method `GenerateKeyboard`. -/
def GenerateKeyboard (userRights : Rights) : List (List Button) :=
  keyboardRows (getButtonsForRights userRights)


/-! ## Language selection (`i18n/i18n.go`, `handlers/handlers.go`) -/

/-- The Go function `strings.ToLower`: every rune mapped by `unicode.ToLower`, which
is the argument `lower`. -/
def ToLower (lower : Char → Char) (s : String) : String := String.mk (s.data.map lower)

/-- The constants `LangUA` and `LangEN`; the Go type `Language` is a string. -/
def LangUA : String := "ua"
def LangEN : String := "en"

/-- The method `Language.IsValid`. -/
def Language.IsValid (l : String) : Bool := decide (l = LangUA) || decide (l = LangEN)

/-- The function `ParseLanguage`. -/
def ParseLanguage (lower : Char → Char) (s : String) : String :=
  let t := ToLower lower s
  if t = "en" ∨ t = "eng" ∨ t = "english" then LangEN else LangUA

/-- The method `DB.UpdateUserLanguage`: one `UPDATE users SET language = ? WHERE
telegram_id = ?`; no row affected is `ErrUserNotFound`. -/
def DB.UpdateUserLanguage (db : DB) (env : HandlerEnv) (telegramID : Int) (language : String) :
    Except Err DB :=
  match env.faults.updateUserLanguage with
  | some msg => .error (.io msg)
  | none =>
    if db.users.any (fun u => decide (u.TelegramID = telegramID)) then
      .ok { db with users := db.users.map (fun u =>
        if u.TelegramID = telegramID then { u with Language := language } else u) }
    else .error .ErrUserNotFound

/-- The method `sendWelcomeMessage`. -/
def sendWelcomeMessage (chatID : Int) (user : User) : List Out :=
  [.sendMessageT chatID "welcome"
      [("display_name", user.GetDisplayName), ("rights", getRightsName user.Rights)],
   .sendMainMenu chatID]

/-- The method `handleLanguageSelection`: the handler state afterwards, the user
struct as the caller's pointer sees it afterwards, and what was sent. An error of the
store update is only logged. -/
def handleLanguageSelection (lower : Char → Char) (h : BotHandlers) (env : HandlerEnv)
    (data : String) (chatID messageID : Int) (user : User) : BotHandlers × User × List Out :=
  let langCode := TrimPrefix data "lang_"
  let lang := ParseLanguage lower langCode
  let db1 :=
    match h.db.UpdateUserLanguage env user.TelegramID lang with
    | .error _ => h.db
    | .ok db' => db'
  let user := { user with Language := lang }
  ({ h with db := db1 }, user, [.deleteMessage chatID messageID] ++ sendWelcomeMessage chatID user)

/-- The handler state over `staffDB` with no session. -/
def staffHandlers : BotHandlers := { userStates := emptyStates, db := staffDB }


/-! ## Auto-close settings handlers (`handlers/handlers.go`) -/

/-- The method `handleAutoCloseSettings`: the settings shown with their keyboard. -/
def handleAutoCloseSettings (h : BotHandlers) (env : HandlerEnv) (chatID messageID : Int) :
    List Out :=
  match GetSettings h.db env with
  | none => [.editMessageT chatID messageID "error_generic" []]
  | some settings =>
    let status :=
      if settings.Enabled then "auto_close_status_enabled" else "auto_close_status_disabled"
    let keysLocation := if !settings.KeysToLobby then "status_keys_admin" else "status_keys_lobby"
    let toggleAction :=
      if settings.Enabled then "auto_close_toggle_disable" else "auto_close_toggle_enable"
    [.editMessageWithKeyboardT chatID messageID "auto_close_info"
      [("status", status), ("time", settings.CloseTime), ("keys", keysLocation),
       ("last_user", settings.LastStatusBy)]
      [[{ TextKey := "btn_auto_close_toggle", Params := [("action", toggleAction)],
          Callback := "auto_close_toggle" }],
       [{ TextKey := "btn_auto_close_time", Callback := "auto_close_time" },
        { TextKey := "btn_auto_close_keys", Callback := "auto_close_keys" }],
       [{ TextKey := "btn_back", Callback := "back_to_menu" }]]]

/-- The method `handleAutoCloseToggle`. -/
def handleAutoCloseToggle (h : BotHandlers) (env : HandlerEnv) (chatID messageID : Int) :
    BotHandlers × List Out :=
  match GetSettings h.db env with
  | none => (h, [.editMessageT chatID messageID "error_generic" []])
  | some settings =>
    let newEnabled := !settings.Enabled
    match h.db.UpdateAutoCloseSettings env newEnabled settings.CloseTime settings.KeysToLobby with
    | .error _ => (h, [.editMessageT chatID messageID "error_generic" []])
    | .ok db' =>
      ({ h with db := db' }, handleAutoCloseSettings { h with db := db' } env chatID messageID)

/-- The method `handleAutoCloseKeysUpdate`. -/
def handleAutoCloseKeysUpdate (h : BotHandlers) (env : HandlerEnv) (data : String)
    (chatID messageID : Int) : BotHandlers × List Out :=
  let keysToLobby := decide (TrimPrefix data "autoclose_keys_" = "lobby")
  match GetSettings h.db env with
  | none => (h, [.editMessageT chatID messageID "error_generic" []])
  | some settings =>
    match h.db.UpdateAutoCloseSettings env settings.Enabled settings.CloseTime keysToLobby with
    | .error _ => (h, [.editMessageT chatID messageID "error_generic" []])
    | .ok db' =>
      ({ h with db := db' },
        [.editMessageT chatID messageID "auto_close_keys_updated"
            [("location", if !keysToLobby then "keys_location_admin" else "keys_location_lobby")],
         .goAutoCloseSettingsRefresh chatID messageID])


/-! ## Theorems: session registry -/

theorem after_iff (t u : Int) : after t u = true ↔ u < t := by
  simp [after]

theorem getUserState_eq_some (m : UserStates) (now userID : Int) (s : UserState) :
    getUserState m now userID = some s ↔ m userID = some s ∧ now ≤ s.Expires := by
  unfold getUserState
  cases h : m userID with
  | none => simp
  | some st =>
    by_cases hx : after now st.Expires = true
    · have hlt : st.Expires < now := (after_iff _ _).1 hx
      simp only [hx, if_true]
      constructor
      · intro h'; cases h'
      · rintro ⟨h1, h2⟩
        cases h1
        omega
    · have hle : ¬ st.Expires < now := fun h' => hx ((after_iff _ _).2 h')
      simp only [hx]
      constructor
      · intro h'
        simp at h'
        subst h'
        exact ⟨rfl, by omega⟩
      · rintro ⟨h1, _⟩
        simpa using h1

/-- C1 (as amended): `getUserState` returns a session exactly when that session is
stored for the identity and the clock is not after its expiry (`now ≤ expiry`, the
expiry instant itself included); strictly after the expiry it returns absent. The
answer is computed from the stored entry and the clock alone, with no reference to
whether a sweep has run. -/
theorem getUserState_returns_iff_not_after_expiry (m : UserStates) (now userID : Int) :
    (∀ s, getUserState m now userID = some s ↔ m userID = some s ∧ now ≤ s.Expires) ∧
    (∀ s, m userID = some s → s.Expires < now → getUserState m now userID = none) := by
  refine ⟨fun s => getUserState_eq_some m now userID s, ?_⟩
  intro s hs hlt
  cases hg : getUserState m now userID with
  | none => rfl
  | some s' =>
    have h := (getUserState_eq_some m now userID s').1 hg
    rw [hs] at h
    have : s = s' := by simpa using h.1
    subst this
    omega

theorem getUserState_returns_iff_not_after_expiry_witness :
    getUserState sampleStates 600000000001 7 = none :=
  (getUserState_returns_iff_not_after_expiry sampleStates 600000000001 7).2
    sampleSession (by decide) (by decide)

/-- C1 (counterexample to the claim as worded): at the expiry instant itself the
stored session is still returned, although `now < expiry` is false. -/
theorem getUserState_at_expiry_instant :
    ¬ (getUserState sampleStates 600000000000 7 = some sampleSession ↔
        (sampleStates 7 = some sampleSession ∧
          (600000000000 : Int) < sampleSession.Expires)) := by
  decide

/-- C2: `setUserState` at instant `t` stores for the identity a session with exactly
the given tag and payload and expiry `t + 10` minutes, whatever was stored before;
every other identity keeps what it had; and `getUserState` for the identity at any
instant `t'` with `t ≤ t' < t + 10` minutes returns that session. -/
theorem setUserState_stores_session (m : UserStates) (t userID : Int) (state : String)
    (data : List (String × String)) :
    setUserState m t userID state data userID
        = some { State := state, Data := data, Expires := t + 10 * Minute } ∧
    (∀ other, other ≠ userID → setUserState m t userID state data other = m other) ∧
    (∀ t', t ≤ t' → t' < t + 10 * Minute →
      getUserState (setUserState m t userID state data) t' userID
        = some { State := state, Data := data, Expires := t + 10 * Minute }) := by
  refine ⟨by simp [setUserState, mapStore], ?_, ?_⟩
  · intro other h
    simp [setUserState, mapStore, h]
  · intro t' _ h2
    rw [getUserState_eq_some]
    exact ⟨by simp [setUserState, mapStore], by simpa using h2.le⟩

theorem setUserState_stores_session_witness :
    getUserState (setUserState sampleStates 5 7 "waiting_broadcast" [("k", "v")]) 599999999999 7
      = some { State := "waiting_broadcast", Data := [("k", "v")], Expires := 5 + 10 * Minute } ∧
    setUserState sampleStates 5 7 "waiting_broadcast" [("k", "v")] 8 = sampleStates 8 :=
  ⟨(setUserState_stores_session sampleStates 5 7 "waiting_broadcast" [("k", "v")]).2.2
      599999999999 (by decide) (by decide),
   (setUserState_stores_session sampleStates 5 7 "waiting_broadcast" [("k", "v")]).2.1
      8 (by decide)⟩

/-- C3: `clearUserState` removes the identity's session whether or not one is stored:
afterwards `getUserState` for it is absent at every instant, every other identity
keeps what it had, and clearing twice gives the same registry as clearing once. -/
theorem clearUserState_removes_and_idempotent (m : UserStates) (userID : Int) :
    (∀ now, getUserState (clearUserState m userID) now userID = none) ∧
    (∀ other, other ≠ userID → clearUserState m userID other = m other) ∧
    clearUserState (clearUserState m userID) userID = clearUserState m userID := by
  refine ⟨?_, ?_, ?_⟩
  · intro now
    simp [getUserState, clearUserState, mapDelete]
  · intro other h
    simp [clearUserState, mapDelete, h]
  · funext j
    by_cases h : j = userID <;> simp [clearUserState, mapDelete, h]

theorem clearUserState_removes_and_idempotent_witness :
    clearUserState sampleStates 8 7 = sampleStates 7 ∧
    clearUserState sampleStates 7 8 = sampleStates 8 :=
  ⟨(clearUserState_removes_and_idempotent sampleStates 8).2.1 7 (by decide),
   (clearUserState_removes_and_idempotent sampleStates 7).2.1 8 (by decide)⟩

theorem getUserState_cleanupPass (m : UserStates) (t t' userID : Int) (h : t ≤ t') :
    getUserState (cleanupPass m t) t' userID = getUserState m t' userID := by
  unfold getUserState cleanupPass
  cases hm : m userID with
  | none => rfl
  | some st =>
    by_cases hx : after t st.Expires = true
    · have h1 : st.Expires < t := (after_iff _ _).1 hx
      have h2 : after t' st.Expires = true := (after_iff _ _).2 (by omega)
      simp [hx, h2]
    · simp [hx]

/-- C4: one sweep of `cleanupExpiredStates` at instant `t` deletes every session whose
expiry has passed (`t` is after it) and keeps every other entry as it was, and it is
invisible to `getUserState`: at every instant `t' ≥ t` and for every identity the
swept and the unswept registry give the same answer. -/
theorem cleanupExpiredStates_sweep (m : UserStates) (t : Int) :
    (∀ userID s, m userID = some s → s.Expires < t →
      cleanupExpiredStates m [t] userID = none) ∧
    (∀ userID s, m userID = some s → ¬ s.Expires < t →
      cleanupExpiredStates m [t] userID = some s) ∧
    (∀ userID, m userID = none → cleanupExpiredStates m [t] userID = none) ∧
    (∀ userID t', t ≤ t' →
      getUserState (cleanupExpiredStates m [t]) t' userID = getUserState m t' userID) := by
  refine ⟨?_, ?_, ?_, ?_⟩
  · intro userID s hs hlt
    have hx : after t s.Expires = true := (after_iff _ _).2 hlt
    simp [cleanupExpiredStates, cleanupPass, hs, hx]
  · intro userID s hs hge
    have hx : ¬ after t s.Expires = true := fun h => hge ((after_iff _ _).1 h)
    simp [cleanupExpiredStates, cleanupPass, hs, hx]
  · intro userID hs
    simp [cleanupExpiredStates, cleanupPass, hs]
  · intro userID t' h
    exact getUserState_cleanupPass m t t' userID h

theorem cleanupExpiredStates_sweep_witness :
    cleanupExpiredStates sampleStates [600000000001] 7 = none ∧
    cleanupExpiredStates sampleStates [600000000000] 7 = some sampleSession ∧
    cleanupExpiredStates sampleStates [3] 8 = none ∧
    getUserState (cleanupExpiredStates sampleStates [600000000001]) 600000000002 7
      = getUserState sampleStates 600000000002 7 :=
  ⟨(cleanupExpiredStates_sweep sampleStates 600000000001).1 7 sampleSession
      (by decide) (by decide),
   (cleanupExpiredStates_sweep sampleStates 600000000000).2.1 7 sampleSession
      (by decide) (by decide),
   (cleanupExpiredStates_sweep sampleStates 3).2.2.1 8 (by decide),
   (cleanupExpiredStates_sweep sampleStates 600000000001).2.2.2 7 600000000002 (by decide)⟩

/-! ## Theorems: callback router -/

theorem HasPrefix_iff (s p : String) :
    HasPrefix s p = true ↔ ∃ t, s = String.mk (p.data ++ t) := by
  unfold HasPrefix
  rw [ List.isPrefixOf_iff_prefix]
  constructor
  · rintro ⟨t, ht⟩
    exact ⟨t, by rw [ht]⟩
  · rintro ⟨t, ht⟩
    exact ⟨t, by rw [ht]⟩

theorem routeCallback_gatedRule (rule : Rule) (hr : rule ∈ gatedRules) (c : CallbackQuery)
    (user : User) (hm : rule.pattern.matchesData c.Data = true) :
    (routeCallback c user = rule.handler c ↔ user.Rights ≥ rule.required) ∧
    (user.Rights < rule.required → routeCallback c user = unknownReply c) := by
  obtain ⟨data, f, ch, mid⟩ := c
  simp only [gatedRules, List.mem_cons, List.mem_singleton, List.not_mem_nil, or_false] at hr
  rcases hr with h | h | h | h | h | h | h | h | h | h | h | h | h | h <;> subst h <;>
    simp only [Pattern.matchesData, decide_eq_true_eq, HasPrefix_iff] at hm
  all_goals
    first
      | subst hm
      | obtain ⟨t, rfl⟩ := hm
  all_goals
    dsimp only [RightsManager, RightsAdmin]
    refine ⟨?_, fun hlt => ?_⟩
    · simp [routeCallback, HasPrefix, User.HasRights, String.ext_iff, RightsManager,
        RightsAdmin]
    · have hn := not_le.2 hlt
      simp [routeCallback, HasPrefix, User.HasRights, unknownReply, String.ext_iff,
        RightsManager, RightsAdmin, hn]

theorem routeCallback_openRule (rule : Rule) (hr : rule ∈ openRules) (c : CallbackQuery)
    (user : User) (hm : rule.pattern.matchesData c.Data = true) :
    routeCallback c user = rule.handler c := by
  obtain ⟨data, f, ch, mid⟩ := c
  simp only [openRules, List.mem_cons, List.mem_singleton, List.not_mem_nil, or_false] at hr
  rcases hr with h | h | h | h | h | h <;> subst h <;>
    simp only [Pattern.matchesData, decide_eq_true_eq, HasPrefix_iff] at hm
  all_goals
    first
      | subst hm
      | obtain ⟨t, rfl⟩ := hm
  all_goals simp [routeCallback, HasPrefix]

/-- C5: for every payload that matches a gated rule of the routing table (Manager for
`set_open_status`, `set_tech_status`, `open_*`, `tech_*`; Admin for `read_ideas`,
`idea_*`, `set_rights`, `rights_*`, `create_broadcast`, `auto_close`,
`auto_close_toggle`, `auto_close_time`, `auto_close_keys`, `autoclose_keys_*`) and
every user, `routeCallback` runs the rule's handler exactly when the user's tier is at
least the required one, and for a lower tier the whole of what it does is the
unknown-command reply (one outbound message, no handler call, hence no session,
status, settings, user or idea mutation). Payloads of the ungated rules (status
viewing, idea submission, notification viewing and toggling, language change) reach
their handler for every tier. -/
theorem routeCallback_authorization (c : CallbackQuery) (user : User) :
    (∀ rule ∈ gatedRules, rule.pattern.matchesData c.Data = true →
      (routeCallback c user = rule.handler c ↔ user.Rights ≥ rule.required) ∧
      (user.Rights < rule.required → routeCallback c user = unknownReply c)) ∧
    (∀ rule ∈ openRules, rule.pattern.matchesData c.Data = true →
      routeCallback c user = rule.handler c) :=
  ⟨fun rule hr hm => routeCallback_gatedRule rule hr c user hm,
   fun rule hr hm => routeCallback_openRule rule hr c user hm⟩

theorem routeCallback_authorization_witness :
    routeCallback sampleCallback sampleUser = unknownReply sampleCallback ∧
    routeCallback sampleStatusCallback sampleUser = [.handleCheckStatus 70 3] :=
  ⟨((routeCallback_authorization sampleCallback sampleUser).1
      ⟨.startsWith "open_", RightsManager,
        fun c => [.handleOpenStatusUpdate c.Data c.ChatID c.MessageID]⟩
      (by simp [gatedRules]) (by decide)).2 (by decide),
   (routeCallback_authorization sampleStatusCallback sampleUser).2
      ⟨.equals "check_status", RightsDefault,
        fun c => [.handleCheckStatus c.ChatID c.MessageID]⟩
      (by simp [openRules]) (by decide)⟩

/-! ## Theorems: time comparison -/

theorem splitChars_ne_nil (sep : Char) (l : List Char) : splitChars sep l ≠ [] := by
  cases l with
  | nil => simp [splitChars]
  | cons c cs =>
    unfold splitChars
    split
    · simp
    · split <;> simp

theorem joinChars_splitChars (sep : Char) (l : List Char) :
    joinChars sep (splitChars sep l) = l := by
  induction l with
  | nil => simp [splitChars, joinChars]
  | cons c cs ih =>
    unfold splitChars
    by_cases hc : c = sep
    · simp only [hc, if_true]
      cases hsp : splitChars sep cs with
      | nil => exact absurd hsp (splitChars_ne_nil sep cs)
      | cons p ps =>
        rw [hsp] at ih
        simp [joinChars, ih]
    · simp only [hc, if_false]
      cases hsp : splitChars sep cs with
      | nil => exact absurd hsp (splitChars_ne_nil sep cs)
      | cons p ps =>
        rw [hsp] at ih
        cases ps with
        | nil =>
          simp only [joinChars] at ih ⊢
          rw [ih]
        | cons q r =>
          simp only [joinChars] at ih ⊢
          rw [← ih]
          simp

theorem Split_injective (s t : String) (sep : Char) (h : Split s sep = Split t sep) : s = t := by
  unfold Split at h
  have hinj : Function.Injective String.mk := fun a b hab => by cases hab; rfl
  have h2 : splitChars sep s.data = splitChars sep t.data := List.map_injective_iff.2 hinj h
  have h3 := congrArg (joinChars sep) h2
  rw [joinChars_splitChars, joinChars_splitChars] at h3
  exact String.ext h3

theorem isDigit_ne_colon (c : Char) (h : c.isDigit = true) : c ≠ ':' := by
  intro hc
  rw [hc] at h
  exact absurd h (by decide)

theorem Split_length_of_isHHMM (s : String) (h : isHHMM s = true) :
    (Split s ':').length = 2 := by
  unfold isHHMM at h
  unfold Split
  split at h
  · rename_i a b c d e hdata
    simp only [Bool.and_eq_true, decide_eq_true_eq] at h
    obtain ⟨⟨⟨⟨ha, hb⟩, hc⟩, hd⟩, he⟩ := h
    rw [hdata, hc]
    simp [splitChars, isDigit_ne_colon a ha, isDigit_ne_colon b hb, isDigit_ne_colon d hd,
      isDigit_ne_colon e he]
  · exact absurd h (by simp)

theorem timeMatches_eq_true_iff (current target : String) :
    timeMatches current target = true ↔
      (Split current ':').length = 2 ∧ Split current ':' = Split target ':' := by
  unfold timeMatches
  simp only []
  constructor
  · intro h
    by_cases hl : (Split current ':').length ≠ 2 ∨ (Split target ':').length ≠ 2
    · simp [hl] at h
    · rw [if_neg hl] at h
      simp only [not_or, not_not] at hl
      simp only [Bool.and_eq_true, decide_eq_true_eq] at h
      refine ⟨hl.1, ?_⟩
      match hc : Split current ':', ht : Split target ':' with
      | [c0, c1], [t0, t1] =>
        rw [hc, ht] at h
        simp at h
        rw [h.1, h.2]
      | [], _ => rw [hc] at hl; simp at hl
      | [_], _ => rw [hc] at hl; simp at hl
      | _ :: _ :: _ :: _, _ => rw [hc] at hl; simp at hl
      | _, [] => rw [ht] at hl; simp at hl
      | _, [_] => rw [ht] at hl; simp at hl
      | _, _ :: _ :: _ :: _ => rw [ht] at hl; simp at hl
  · rintro ⟨hl, heq⟩
    rw [← heq]
    simp [hl]

/-- C9: the scheduler's time comparison is exact string equality: for every
current-time string of the wall-clock form `HH:MM` (two digits, a colon, two digits)
and every stored close-time string, `timeMatches current target` is true if and only
if the two strings are equal. -/
theorem timeMatches_iff_eq (current target : String) (h : isHHMM current = true) :
    timeMatches current target = true ↔ current = target := by
  rw [timeMatches_eq_true_iff]
  constructor
  · rintro ⟨_, heq⟩
    exact Split_injective current target ':' heq
  · intro heq
    subst heq
    exact ⟨Split_length_of_isHHMM current h, rfl⟩

theorem timeMatches_iff_eq_witness :
    (timeMatches "22:00" "22:00" = true ↔ "22:00" = "22:00") ∧
    (timeMatches "09:05" "9:5" = true ↔ "09:05" = "9:5") :=
  ⟨timeMatches_iff_eq "22:00" "22:00" (by decide),
   timeMatches_iff_eq "09:05" "9:5" (by decide)⟩

/-! ## Theorems: scheduler tick -/

theorem digitChar_isDigit (d : Nat) : (digitChar d).isDigit = true := by
  unfold digitChar
  have h : d % 10 < 10 := Nat.mod_lt _ (by decide)
  generalize d % 10 = k at h
  interval_cases k <;> decide

theorem isHHMM_Format1504 (t : Time) : isHHMM t.Format1504 = true := by
  simp [isHHMM, Time.Format1504, digitChar_isDigit]

theorem timeMatches_Format1504 (t : Time) (target : String) :
    timeMatches t.Format1504 target = true ↔ t.Format1504 = target := by
  rw [timeMatches_eq_true_iff]
  constructor
  · rintro ⟨_, heq⟩
    exact Split_injective _ target ':' heq
  · intro heq
    subst heq
    exact ⟨Split_length_of_isHHMM _ (isHHMM_Format1504 t), rfl⟩

/-- A tick that reads a closed Status returns the scheduler as it was and issues no write. -/
theorem checkAndExecute_closed (s : SchedulerService) (env : TickEnv)
    (hc : s.db.status.IsOpen = false) :
    (s.checkAndExecute env).1 = s ∧
    ∀ op ∈ (s.checkAndExecute env).2, op.isStatusWrite = false := by
  unfold SchedulerService.checkAndExecute SchedulerService.executeAutoClose
    DB.GetAutoCloseSettings DB.GetStatus
  by_cases h1 : env.faults.getAutoCloseSettings = true
  · simp [h1, Op.isStatusWrite]
  · by_cases h2 : s.db.settings.Enabled = true
    · by_cases h3 : timeMatches env.now.Format1504 s.db.settings.CloseTime = true
      · by_cases h4 : env.faults.getStatus = true
        · simp [h1, h2, h3, h4, Op.isStatusWrite]
        · simp [h1, h2, h3, h4, hc, Op.isStatusWrite]
      · simp [h1, h2, h3, Op.isStatusWrite]
    · simp [h1, h2, Op.isStatusWrite]

/-- A tick whose settings are disabled or whose minute does not match returns the
scheduler as it was, without touching Status. -/
theorem checkAndExecute_idle (s : SchedulerService) (env : TickEnv)
    (h : s.db.settings.Enabled = false ∨
      timeMatches env.now.Format1504 s.db.settings.CloseTime = false) :
    (s.checkAndExecute env).1 = s ∧
    ∀ op ∈ (s.checkAndExecute env).2, op.isStatusRead = false ∧ op.isStatusWrite = false := by
  unfold SchedulerService.checkAndExecute DB.GetAutoCloseSettings
  by_cases h1 : env.faults.getAutoCloseSettings = true
  · simp [h1, Op.isStatusWrite, Op.isStatusRead]
  · rcases h with h | h
    · simp [h1, h, Op.isStatusWrite, Op.isStatusRead]
    · by_cases h2 : s.db.settings.Enabled = true
      · simp [h1, h2, h, Op.isStatusWrite, Op.isStatusRead]
      · simp [h1, h2, Op.isStatusWrite, Op.isStatusRead]

/-- C6: when a tick reads auto-close enabled, renders the current time as the stored
close time and reads Status open, it issues the Status update with closed, the
technical flag set to the negation of `KeysToLobby`, and updater `LastStatusBy`, or
the literal `auto-close` when `LastStatusBy` is empty; once the store has accepted
that update, Status holds exactly those values, stamped with the time of the write. -/
theorem checkAndExecute_auto_close (s : SchedulerService) (env : TickEnv)
    (hs : env.faults.getAutoCloseSettings = false) (hg : env.faults.getStatus = false)
    (hen : s.db.settings.Enabled = true)
    (ht : env.now.Format1504 = s.db.settings.CloseTime)
    (ho : s.db.status.IsOpen = true) :
    Op.updateOpenStatusAuto false s.db.settings.KeysToLobby
        (if s.db.settings.LastStatusBy = "" then "auto-close" else s.db.settings.LastStatusBy)
      ∈ (s.checkAndExecute env).2 ∧
    (env.faults.updateOpenStatusAuto = false →
      (s.checkAndExecute env).1.db.status =
        { ID := s.db.status.ID, IsOpen := false,
          TechnicalStatus := !s.db.settings.KeysToLobby,
          UpdatedAt := env.writeNow.Nanos,
          UpdatedBy := if s.db.settings.LastStatusBy = "" then "auto-close"
                       else s.db.settings.LastStatusBy }) := by
  have hm : timeMatches env.now.Format1504 s.db.settings.CloseTime = true :=
    (timeMatches_Format1504 _ _).2 ht
  unfold SchedulerService.checkAndExecute SchedulerService.executeAutoClose
    DB.GetAutoCloseSettings DB.GetStatus DB.UpdateOpenStatusAuto
  constructor
  · by_cases hw : env.faults.updateOpenStatusAuto = true
    · simp [hs, hg, hen, hm, ho, hw]
    · simp [hs, hg, hen, hm, ho, hw]
  · intro hw
    simp [hs, hg, hen, hm, ho, hw]

theorem checkAndExecute_auto_close_witness :
    Op.updateOpenStatusAuto false false "auto-close"
      ∈ ((NewSchedulerService sampleDB).checkAndExecute sampleEnv).2 ∧
    ((NewSchedulerService sampleDB).checkAndExecute sampleEnv).1.db.status =
      { ID := 1, IsOpen := false, TechnicalStatus := true, UpdatedAt := 1005,
        UpdatedBy := "auto-close" } :=
  ⟨(checkAndExecute_auto_close (NewSchedulerService sampleDB) sampleEnv rfl rfl rfl
      (by decide) rfl).1,
   (checkAndExecute_auto_close (NewSchedulerService sampleDB) sampleEnv rfl rfl rfl
      (by decide) rfl).2 rfl⟩

/-- A tick that logs no store error and meets Status open in a matching, enabled
minute leaves Status closed. -/
theorem checkAndExecute_closes_or_idle (s : SchedulerService) (env : TickEnv)
    (hok : ∀ op ∈ (s.checkAndExecute env).2, op.isErrorLog = false) :
    ((s.checkAndExecute env).1 = s ∧
      (s.db.settings.Enabled = false ∨
        timeMatches env.now.Format1504 s.db.settings.CloseTime = false ∨
        s.db.status.IsOpen = false)) ∨
    ((s.checkAndExecute env).1.db.status.IsOpen = false) := by
  revert hok
  unfold SchedulerService.checkAndExecute SchedulerService.executeAutoClose
    DB.GetAutoCloseSettings DB.GetStatus DB.UpdateOpenStatusAuto
  by_cases h1 : env.faults.getAutoCloseSettings = true
  · simp [h1, Op.isErrorLog]
  · by_cases h2 : s.db.settings.Enabled = true
    · by_cases h3 : timeMatches env.now.Format1504 s.db.settings.CloseTime = true
      · by_cases h4 : env.faults.getStatus = true
        · simp [h1, h2, h3, h4, Op.isErrorLog]
        · by_cases h5 : s.db.status.IsOpen = true
          · by_cases h6 : env.faults.updateOpenStatusAuto = true
            · simp [h1, h2, h3, h4, h5, h6, Op.isErrorLog]
            · simp [h1, h2, h3, h4, h5, h6, Op.isErrorLog]
          · simp [h1, h2, h3, h4, h5, Op.isErrorLog]
      · simp [h1, h2, h3, Op.isErrorLog]
    · simp [h1, h2, Op.isErrorLog]

theorem checkAndExecute_settings (s : SchedulerService) (env : TickEnv) :
    (s.checkAndExecute env).1.db.settings = s.db.settings ∧
    (s.checkAndExecute env).1.stopChanClosed = s.stopChanClosed := by
  unfold SchedulerService.checkAndExecute SchedulerService.executeAutoClose
    DB.GetAutoCloseSettings DB.GetStatus DB.UpdateOpenStatusAuto
  by_cases h1 : env.faults.getAutoCloseSettings = true
  · simp [h1]
  · by_cases h2 : s.db.settings.Enabled = true
    · by_cases h3 : timeMatches env.now.Format1504 s.db.settings.CloseTime = true
      · by_cases h4 : env.faults.getStatus = true
        · simp [h1, h2, h3, h4]
        · by_cases h5 : s.db.status.IsOpen = true
          · by_cases h6 : env.faults.updateOpenStatusAuto = true
            · simp [h1, h2, h3, h4, h5, h6]
            · simp [h1, h2, h3, h4, h5, h6]
          · simp [h1, h2, h3, h4, h5]
      · simp [h1, h2, h3]
    · simp [h1, h2]

/-- C7 (as amended): two ticks whose clock readings render to the same `HH:MM`, the
first of which logged no store error, leave Status (flags, `UpdatedBy`, `UpdatedAt`)
exactly as the first tick left it, the second issuing no Status write; and in general
a tick that meets Status already closed leaves the store as it was and issues no
Status write. -/
theorem checkAndExecute_idempotent (s : SchedulerService) (env1 env2 : TickEnv)
    (hmin : env1.now.Format1504 = env2.now.Format1504)
    (hok : ∀ op ∈ (s.checkAndExecute env1).2, op.isErrorLog = false) :
    (((s.checkAndExecute env1).1.checkAndExecute env2).1.db.status
        = (s.checkAndExecute env1).1.db.status ∧
      ∀ op ∈ ((s.checkAndExecute env1).1.checkAndExecute env2).2, op.isStatusWrite = false) ∧
    (s.db.status.IsOpen = false →
      (s.checkAndExecute env1).1.db = s.db ∧
      ∀ op ∈ (s.checkAndExecute env1).2, op.isStatusWrite = false) := by
  constructor
  · rcases checkAndExecute_closes_or_idle s env1 hok with ⟨hs, hd | hd | hd⟩ | hc
    · rw [hs]
      have h := checkAndExecute_idle s env2 (Or.inl hd)
      exact ⟨by rw [h.1], fun op hop => (h.2 op hop).2⟩
    · rw [hs]
      have h := checkAndExecute_idle s env2 (Or.inr (by rw [← hmin]; exact hd))
      exact ⟨by rw [h.1], fun op hop => (h.2 op hop).2⟩
    · rw [hs]
      have h := checkAndExecute_closed s env2 hd
      exact ⟨by rw [h.1], h.2⟩
    · have h := checkAndExecute_closed (s.checkAndExecute env1).1 env2 hc
      exact ⟨by rw [h.1], h.2⟩
  · intro hc
    have h := checkAndExecute_closed s env1 hc
    exact ⟨by rw [h.1], h.2⟩

theorem checkAndExecute_idempotent_witness :
    (((NewSchedulerService sampleDB).checkAndExecute sampleEnv).1.checkAndExecute
        sampleEnvLater).1.db.status
      = ((NewSchedulerService sampleDB).checkAndExecute sampleEnv).1.db.status :=
  (checkAndExecute_idempotent (NewSchedulerService sampleDB) sampleEnv sampleEnvLater
    (by decide) (by decide)).1.1

/-- C7 (counterexample to the claim as worded): in the matching minute 22:00 with
Status open, a first tick whose Status read fails leaves Status open, and a second
tick in the same minute then closes it, so Status is not as the first tick left it. -/
theorem checkAndExecute_retry_after_failed_read :
    failedReadEnv.now.Format1504 = sampleEnvLater.now.Format1504 ∧
    timeMatches failedReadEnv.now.Format1504 sampleDB.settings.CloseTime = true ∧
    (((NewSchedulerService sampleDB).checkAndExecute failedReadEnv).1.checkAndExecute
        sampleEnvLater).1.db.status
      ≠ ((NewSchedulerService sampleDB).checkAndExecute failedReadEnv).1.db.status := by
  decide

/-- C8: with `Enabled` false in the stored settings a tick is a no-op for every clock
reading and every Status: the scheduler and its store come back unchanged, no
operation of the tick reads or writes Status, nothing writes the settings, and when
the settings read succeeds that read is the only operation. -/
theorem checkAndExecute_disabled (s : SchedulerService) (env : TickEnv)
    (hd : s.db.settings.Enabled = false) :
    (s.checkAndExecute env).1 = s ∧
    (∀ op ∈ (s.checkAndExecute env).2, op.isStatusRead = false ∧ op.isStatusWrite = false) ∧
    (env.faults.getAutoCloseSettings = false →
      (s.checkAndExecute env).2 = [Op.getAutoCloseSettings]) := by
  have h := checkAndExecute_idle s env (Or.inl hd)
  refine ⟨h.1, h.2, ?_⟩
  intro hf
  simp [SchedulerService.checkAndExecute, DB.GetAutoCloseSettings, hf, hd]

/-- C10: if the settings read fails the tick stops after logging it, the store
unchanged; if the Status read fails the store is unchanged and no Status write is
issued; if the Status write fails the store is unchanged; and in every case the tick
leaves the scheduler's own fields and the settings as they were, its outcome being
determined by the store contents and the tick's clock readings and store-call
outcomes alone (two schedulers over the same store behave alike). -/
theorem checkAndExecute_failure_handling (s : SchedulerService) (env : TickEnv) :
    (env.faults.getAutoCloseSettings = true →
      (s.checkAndExecute env).1 = s ∧
      (s.checkAndExecute env).2 = [Op.getAutoCloseSettings, Op.logSettingsError]) ∧
    (env.faults.getStatus = true →
      (s.checkAndExecute env).1 = s ∧
      ∀ op ∈ (s.checkAndExecute env).2, op.isStatusWrite = false) ∧
    (env.faults.updateOpenStatusAuto = true → (s.checkAndExecute env).1 = s) ∧
    (s.checkAndExecute env).1.stopChanClosed = s.stopChanClosed ∧
    (s.checkAndExecute env).1.db.settings = s.db.settings ∧
    (∀ s' : SchedulerService, s'.db = s.db →
      (s'.checkAndExecute env).1.db = (s.checkAndExecute env).1.db ∧
      (s'.checkAndExecute env).2 = (s.checkAndExecute env).2) := by
  refine ⟨?_, ?_, ?_, (checkAndExecute_settings s env).2, (checkAndExecute_settings s env).1, ?_⟩
  · intro h1
    simp [SchedulerService.checkAndExecute, DB.GetAutoCloseSettings, h1]
  · intro h4
    unfold SchedulerService.checkAndExecute SchedulerService.executeAutoClose
      DB.GetAutoCloseSettings DB.GetStatus
    by_cases h1 : env.faults.getAutoCloseSettings = true
    · simp [h1, Op.isStatusWrite]
    · by_cases h2 : s.db.settings.Enabled = true
      · by_cases h3 : timeMatches env.now.Format1504 s.db.settings.CloseTime = true
        · simp [h1, h2, h3, h4, Op.isStatusWrite]
        · simp [h1, h2, h3, Op.isStatusWrite]
      · simp [h1, h2, Op.isStatusWrite]
  · intro h6
    unfold SchedulerService.checkAndExecute SchedulerService.executeAutoClose
      DB.GetAutoCloseSettings DB.GetStatus DB.UpdateOpenStatusAuto
    by_cases h1 : env.faults.getAutoCloseSettings = true
    · simp [h1]
    · by_cases h2 : s.db.settings.Enabled = true
      · by_cases h3 : timeMatches env.now.Format1504 s.db.settings.CloseTime = true
        · by_cases h4 : env.faults.getStatus = true
          · simp [h1, h2, h3, h4]
          · by_cases h5 : s.db.status.IsOpen = true
            · simp [h1, h2, h3, h4, h5, h6]
            · simp [h1, h2, h3, h4, h5]
        · simp [h1, h2, h3]
      · simp [h1, h2]
  · intro s' hs'
    unfold SchedulerService.checkAndExecute SchedulerService.executeAutoClose
    rw [hs']
    by_cases h1 : env.faults.getAutoCloseSettings = true
    · simp [DB.GetAutoCloseSettings, h1, hs']
    · by_cases h2 : s.db.settings.Enabled = true
      · by_cases h3 : timeMatches env.now.Format1504 s.db.settings.CloseTime = true
        · by_cases h4 : env.faults.getStatus = true
          · simp [DB.GetAutoCloseSettings, DB.GetStatus, h1, h2, h3, h4, hs']
          · by_cases h5 : s.db.status.IsOpen = true
            · by_cases h6 : env.faults.updateOpenStatusAuto = true
              · simp [DB.GetAutoCloseSettings, DB.GetStatus, DB.UpdateOpenStatusAuto,
                  h1, h2, h3, h4, h5, h6, hs']
              · simp [DB.GetAutoCloseSettings, DB.GetStatus, DB.UpdateOpenStatusAuto,
                  h1, h2, h3, h4, h5, h6, hs']
            · simp [DB.GetAutoCloseSettings, DB.GetStatus, h1, h2, h3, h4, h5, hs']
        · simp [DB.GetAutoCloseSettings, h1, h2, h3, hs']
      · simp [DB.GetAutoCloseSettings, h1, h2, hs']

theorem checkAndExecute_disabled_witness :
    ((NewSchedulerService disabledDB).checkAndExecute sampleEnv).1
        = NewSchedulerService disabledDB ∧
    ((NewSchedulerService disabledDB).checkAndExecute sampleEnv).2
        = [Op.getAutoCloseSettings] :=
  ⟨(checkAndExecute_disabled (NewSchedulerService disabledDB) sampleEnv rfl).1,
   (checkAndExecute_disabled (NewSchedulerService disabledDB) sampleEnv rfl).2.2 rfl⟩

theorem checkAndExecute_failure_handling_witness :
    ((NewSchedulerService sampleDB).checkAndExecute failedWriteEnv).1
        = NewSchedulerService sampleDB ∧
    (({ db := sampleDB, stopChanClosed := true } : SchedulerService).checkAndExecute
        sampleEnv).2
      = ((NewSchedulerService sampleDB).checkAndExecute sampleEnv).2 :=
  ⟨(checkAndExecute_failure_handling (NewSchedulerService sampleDB) failedWriteEnv).2.2.1 rfl,
   ((checkAndExecute_failure_handling (NewSchedulerService sampleDB) sampleEnv).2.2.2.2.2
      { db := sampleDB, stopChanClosed := true } rfl).2⟩

/-! ## Theorems: time validation -/

/-- C11: `isValidTimeFormat` validates by integer range, not by shape: a string is
accepted if and only if splitting it on `:` gives exactly two parts, each of which
`strconv.Atoi` parses, with hours in `0..23` and minutes in `0..59`. So `23:59` is
accepted, `24:00` is rejected, and `9:5`, which is not of the shape `HH:MM`, is
accepted with hours `9` and minutes `5`. -/
theorem isValidTimeFormat_iff_integer_range (timeStr : String) :
    (isValidTimeFormat timeStr = true ↔
      ∃ p0 p1 hours minutes, Split timeStr ':' = [p0, p1] ∧
        Atoi p0 = some hours ∧ Atoi p1 = some minutes ∧
        0 ≤ hours ∧ hours ≤ 23 ∧ 0 ≤ minutes ∧ minutes ≤ 59) ∧
    isValidTimeFormat "23:59" = true ∧
    isValidTimeFormat "24:00" = false ∧
    (isValidTimeFormat "9:5" = true ∧ isHHMM "9:5" = false ∧
      Split "9:5" ':' = ["9", "5"] ∧ Atoi "9" = some 9 ∧ Atoi "5" = some 5) := by
  refine ⟨?_, by decide, by decide, by decide⟩
  unfold isValidTimeFormat
  constructor
  · intro h
    split at h
    · rename_i p0 p1 hsplit
      split at h
      · exact absurd h (by simp)
      · rename_i hours hh
        split at h
        · exact absurd h (by simp)
        · rename_i hr
          split at h
          · exact absurd h (by simp)
          · rename_i minutes hm
            split at h
            · exact absurd h (by simp)
            · rename_i mr
              refine ⟨p0, p1, hours, minutes, hsplit, hh, hm, ?_⟩
              omega
    · exact absurd h (by simp)
  · rintro ⟨p0, p1, hours, minutes, hsplit, hh, hm, h1, h2, h3, h4⟩
    have hr : ¬ (hours < 0 ∨ hours > 23) := by omega
    have mr : ¬ (minutes < 0 ∨ minutes > 59) := by omega
    simp [hsplit, hh, hm, hr, mr]

/-! ## Theorems: state continuations -/

theorem utf8Len_ge_length (cs : List Char) : cs.length ≤ String.utf8Len cs := by
  induction cs with
  | nil => simp
  | cons c cs ih =>
    have hc : 0 < c.utf8Size := Char.utf8Size_pos c
    simp only [List.length_cons, String.utf8Len_cons]
    omega

theorem length_le_len (s : String) : s.length ≤ len s := by
  obtain ⟨cs⟩ := s
  simpa [len, String.length] using utf8Len_ge_length cs

theorem utf8Len_replicate (n : Nat) (c : Char) :
    String.utf8Len (List.replicate n c) = n * c.utf8Size := by
  induction n with
  | zero => simp
  | succ n ih =>
    simp only [List.replicate_succ, String.utf8Len_cons, ih]
    ring

theorem len_cyrillicText : len cyrillicText = 4002 ∧ cyrillicText.length = 2001 := by
  constructor
  · have h : ('я').utf8Size = 2 := by decide
    show String.utf8Len (List.replicate 2001 'я') = 4002
    rw [utf8Len_replicate, h]
  · show (List.replicate 2001 'я').length = 2001
    exact List.length_replicate 2001 'я'

/-- The idea continuation for the texts its byte guard lets through: in the state
`waiting_idea`, a non-empty text of at most 4000 bytes of UTF-8 from a sender who has
a row in `users`, when the driver reports no error, is persisted as an Idea of the
sender with that content and the session is cleared; a text of more than 4000
characters is not persisted and leaves registry and store as they were; and whatever
the text, every Idea in the store afterwards either was there before or has non-empty
content of at most 4000 characters. -/
theorem handleUserState_waiting_idea (h : BotHandlers) (env : HandlerEnv) (message : Message)
    (state : UserState) (user : User) (hs : state.State = "waiting_idea") :
    (message.Text ≠ "" → len message.Text ≤ 4000 → env.faults.addIdea = none →
      (∃ u ∈ h.db.users, u.TelegramID = message.FromID) →
      (handleUserState h env message state user).1.db.ideas
        = h.db.ideas ++ [{ ID := h.db.nextIdeaID, UserID := message.FromID,
                           Username := message.FromUserName, Content := message.Text,
                           CreatedAt := env.stamp }] ∧
      (handleUserState h env message state user).1.userStates
        = clearUserState h.userStates message.FromID) ∧
    (message.Text.length > 4000 →
      (handleUserState h env message state user).1.db = h.db ∧
      (handleUserState h env message state user).1.userStates = h.userStates) ∧
    (∀ i ∈ (handleUserState h env message state user).1.db.ideas,
      i ∈ h.db.ideas ∨ (i.Content ≠ "" ∧ i.Content.length ≤ 4000)) := by
  have hlen := length_le_len message.Text
  refine ⟨?_, ?_, ?_⟩
  · intro hne hle hf hrow
    have h1 : ¬ len message.Text > 4000 := by omega
    have hl0 : message.Text.length ≠ 0 := by
      intro h0
      apply hne
      apply String.ext
      exact List.length_eq_zero.1 h0
    have hck : ¬ (message.Text.length = 0 ∨ 4000 < message.Text.length) := by omega
    have hfk : ¬ ∀ x ∈ h.db.users, ¬ x.TelegramID = message.FromID := by
      obtain ⟨u, hu, hut⟩ := hrow
      exact fun hall => hall u hu hut
    simp [handleUserState, hs, h1, AddIdea, DB.AddIdea, Idea.Validate, hne, hf, hck, hfk]
  · intro hgt
    have h1 : len message.Text > 4000 := by omega
    simp [handleUserState, hs, h1]
  · intro i hi
    unfold handleUserState at hi
    simp only [hs, if_true] at hi
    by_cases h1 : len message.Text > 4000
    · simp only [h1, if_true] at hi
      exact Or.inl hi
    · simp only [h1, if_false] at hi
      unfold AddIdea DB.AddIdea Idea.Validate at hi
      by_cases h2 : message.Text = ""
      · simp [h2] at hi
        exact Or.inl hi
      · cases h3 : env.faults.addIdea with
        | some msg =>
          simp [h2, h1, h3] at hi
          exact Or.inl hi
        | none =>
          have hl0 : message.Text.length ≠ 0 := by
            intro h0
            apply h2
            apply String.ext
            exact List.length_eq_zero.1 h0
          have hck : ¬ (message.Text.length = 0 ∨ 4000 < message.Text.length) := by omega
          by_cases hfk : ∀ x ∈ h.db.users, ¬ x.TelegramID = message.FromID
          · simp [h2, h1, h3, hck, if_pos hfk] at hi
            exact Or.inl hi
          · simp [h2, h1, h3, hck, hfk] at hi
            rcases hi with hi | hi
            · exact Or.inl hi
            · subst hi
              exact Or.inr ⟨h2, by simp only []; omega⟩

theorem handleUserState_idea_too_long (h : BotHandlers) (env : HandlerEnv)
    (message : Message) (state : UserState) (user : User)
    (hs : state.State = "waiting_idea") (hl : len message.Text > 4000) :
    handleUserState h env message state user
      = (h, [.sendMessageT message.ChatID "idea_too_long" []]) := by
  simp [handleUserState, hs, hl]

/-- C12 (the code at the failing input): an idea text of 2001 Cyrillic letters has no
more than 4000 characters, yet in the state `waiting_idea` the continuation answers
with the too-long reply, persists no Idea and keeps the session, because `len` counts
its 4002 bytes. -/
theorem handleUserState_idea_cyrillic_rejected :
    cyrillicText.length = 2001 ∧
    (handleUserState ideaHandlers sampleHandlerEnv cyrillicMessage sampleSession
        sampleUser).2 = [.sendMessageT 70 "idea_too_long" []] ∧
    (handleUserState ideaHandlers sampleHandlerEnv cyrillicMessage sampleSession
        sampleUser).1.db.ideas = [] ∧
    (handleUserState ideaHandlers sampleHandlerEnv cyrillicMessage sampleSession
        sampleUser).1.userStates 7 = some sampleSession := by
  have hl : len cyrillicMessage.Text > 4000 := by
    show len cyrillicText > 4000
    rw [len_cyrillicText.1]
    decide
  rw [handleUserState_idea_too_long ideaHandlers sampleHandlerEnv cyrillicMessage
    sampleSession sampleUser rfl hl]
  exact ⟨len_cyrillicText.2, rfl, rfl, by decide⟩

/-- C13 (as amended): in the state `waiting_auto_close_time` the session is cleared
for every text; if the trimmed text fails time validation the store is left as it
was; if it passes and the settings read and write both succeed, `CloseTime` becomes
the trimmed text; and in every case `Enabled`, `KeysToLobby` and `LastStatusBy` keep
their values. -/
theorem handleUserState_waiting_auto_close_time (h : BotHandlers) (env : HandlerEnv)
    (message : Message) (state : UserState) (user : User)
    (hs : state.State = "waiting_auto_close_time") :
    (handleUserState h env message state user).1.userStates
      = clearUserState h.userStates message.FromID ∧
    (isValidTimeFormat (TrimSpace message.Text) = false →
      (handleUserState h env message state user).1.db = h.db) ∧
    (isValidTimeFormat (TrimSpace message.Text) = true →
      env.faults.getAutoCloseSettings = none → env.faults.updateAutoCloseSettings = none →
      (handleUserState h env message state user).1.db.settings.CloseTime
        = TrimSpace message.Text) ∧
    ((handleUserState h env message state user).1.db.settings.Enabled = h.db.settings.Enabled ∧
      (handleUserState h env message state user).1.db.settings.KeysToLobby
        = h.db.settings.KeysToLobby ∧
      (handleUserState h env message state user).1.db.settings.LastStatusBy
        = h.db.settings.LastStatusBy) := by
  have e : handleUserState h env message state user
      = handleAutoCloseTimeUpdate
          { h with userStates := clearUserState h.userStates message.FromID } env
          message.ChatID (TrimSpace message.Text) := by
    simp [handleUserState, hs]
  rw [e]
  unfold handleAutoCloseTimeUpdate GetSettings DB.GetAutoCloseSettings StoreFaults.toFaults
    DB.UpdateAutoCloseSettings
  by_cases hv : isValidTimeFormat (TrimSpace message.Text) = true
  · cases hf1 : env.faults.getAutoCloseSettings with
    | some m1 => simp [hv, hf1]
    | none =>
      cases hf2 : env.faults.updateAutoCloseSettings with
      | some m2 => simp [hv, hf1, hf2]
      | none => simp [hv, hf1, hf2]
  · simp [hv]

theorem handleUserState_waiting_auto_close_time_witness :
    (handleUserState closeTimeHandlers sampleHandlerEnv closeTimeMessage closeTimeSession
        sampleUser).1.db.settings.CloseTime = "21:30" ∧
    (handleUserState closeTimeHandlers sampleHandlerEnv
        { closeTimeMessage with Text := "half past nine" } closeTimeSession sampleUser).1.db
      = sampleDB :=
  ⟨(handleUserState_waiting_auto_close_time closeTimeHandlers sampleHandlerEnv closeTimeMessage
      closeTimeSession sampleUser rfl).2.2.1 (by decide) rfl rfl,
   (handleUserState_waiting_auto_close_time closeTimeHandlers sampleHandlerEnv
      { closeTimeMessage with Text := "half past nine" } closeTimeSession sampleUser rfl).2.1
      (by decide)⟩

/-- C13 (counterexample to the claim as worded): the trimmed text `21:30` passes time
validation, but when the settings read fails the handler stops with the generic error
reply and `CloseTime` stays `22:00`. -/
theorem handleUserState_close_time_read_failure :
    isValidTimeFormat (TrimSpace closeTimeMessage.Text) = true ∧
    (handleUserState closeTimeHandlers settingsReadFailsEnv closeTimeMessage closeTimeSession
        sampleUser).1.db.settings.CloseTime = "22:00" ∧
    (handleUserState closeTimeHandlers settingsReadFailsEnv closeTimeMessage closeTimeSession
        sampleUser).2 = [.sendMessageT 70 "error_generic" []] := by
  decide

theorem handleUserState_broadcast_too_long (h : BotHandlers) (env : HandlerEnv)
    (message : Message) (state : UserState) (user : User)
    (hs : state.State = "waiting_broadcast") (hl : len message.Text > 4000) :
    handleUserState h env message state user
      = (h, [.sendMessageT message.ChatID "idea_too_long" []]) := by
  simp [handleUserState, hs, hl]

/-- C14 (the code at the failing input): a broadcast text of 2001 Cyrillic letters has
no more than 4000 characters, yet the continuation answers with the too-long reply,
sends no alert and keeps the session, because `len` counts its 4002 bytes. -/
theorem handleUserState_broadcast_cyrillic_rejected :
    cyrillicText.length = 2001 ∧
    (handleUserState broadcastHandlers sampleHandlerEnv cyrillicMessage broadcastSession
        sampleUser).2 = [.sendMessageT 70 "idea_too_long" []] ∧
    (handleUserState broadcastHandlers sampleHandlerEnv cyrillicMessage broadcastSession
        sampleUser).1.userStates 7 = some broadcastSession := by
  have hl : len cyrillicMessage.Text > 4000 := by
    show len cyrillicText > 4000
    rw [len_cyrillicText.1]
    decide
  rw [handleUserState_broadcast_too_long broadcastHandlers sampleHandlerEnv cyrillicMessage
    broadcastSession sampleUser rfl hl]
  exact ⟨len_cyrillicText.2, rfl, by decide⟩

/-! ## Theorems: broadcast -/

theorem broadcastLoop_eq (env : HandlerEnv) (message : String) (users : List User) :
    (broadcastLoop env message users).2
      = users.map (fun u => Out.botSend u.TelegramID ("🚨 ALERT: " ++ message)) ∧
    (broadcastLoop env message users).1
      = (users.filter (fun u => !env.sendFails u.TelegramID)).length := by
  induction users with
  | nil => simp [broadcastLoop]
  | cons u rest ih =>
    by_cases hf : env.sendFails u.TelegramID = true
    · simp [broadcastLoop, ih.1, ih.2, hf]
    · simp [broadcastLoop, ih.1, ih.2, hf]

/-- C15 (as amended): when the recipient lookup completes, `SendBroadcast` attempts one
send to each user whose tier is at least Manager (the Manager and the Admin tier), in
row order and to nobody else, each carrying the alert mark followed by the text, and
returns the number of those sends that succeeded, which is at most the number of those
users; when the lookup returns an error it sends nothing and returns the error; and in
no case does it send to a user below the Manager tier. -/
theorem SendBroadcast_fans_out (db : DB) (env : HandlerEnv) (text : String) :
    (env.faults.getAllAdmins = none → env.faults.getAllAdminsStep = none →
      (SendBroadcast db env text).2
        = (db.users.filter (fun u => decide (u.Rights ≥ RightsManager))).map
            (fun u => Out.botSend u.TelegramID ("🚨 ALERT: " ++ text)) ∧
      (SendBroadcast db env text).1
        = .ok (((db.users.filter (fun u => decide (u.Rights ≥ RightsManager))).filter
            (fun u => !env.sendFails u.TelegramID)).length) ∧
      ((db.users.filter (fun u => decide (u.Rights ≥ RightsManager))).filter
          (fun u => !env.sendFails u.TelegramID)).length
        ≤ (db.users.filter (fun u => decide (u.Rights ≥ RightsManager))).length) ∧
    (∀ e, db.GetAllAdmins env = .error e → SendBroadcast db env text = (.error e, [])) ∧
    (∀ msg, env.faults.getAllAdmins = some msg →
      db.GetAllAdmins env = .error (.io msg)) ∧
    (∀ o ∈ (SendBroadcast db env text).2, ∃ u ∈ db.users, u.Rights ≥ RightsManager ∧
      o = Out.botSend u.TelegramID ("🚨 ALERT: " ++ text)) := by
  refine ⟨?_, ?_, ?_, ?_⟩
  · intro hf hs
    refine ⟨?_, ?_, List.length_filter_le _ _⟩
    · simp [SendBroadcast, DB.GetAllAdmins, hf, hs, (broadcastLoop_eq env text _).1]
    · simp [SendBroadcast, DB.GetAllAdmins, hf, hs, (broadcastLoop_eq env text _).2]
  · intro e he
    simp [SendBroadcast, he]
  · intro msg hf
    simp [DB.GetAllAdmins, hf]
  · intro o ho
    unfold SendBroadcast at ho
    cases hg : db.GetAllAdmins env with
    | error e => simp [hg] at ho
    | ok users =>
      simp only [hg, (broadcastLoop_eq env text users).1, List.mem_map] at ho
      obtain ⟨u, hu, rfl⟩ := ho
      have hsub : u ∈ db.users.filter (fun u => decide (u.Rights ≥ RightsManager)) := by
        unfold DB.GetAllAdmins at hg
        cases hf : env.faults.getAllAdmins with
        | some msg => simp [hf] at hg
        | none =>
          cases hs : env.faults.getAllAdminsStep with
          | some n =>
            simp only [hf, hs, Except.ok.injEq] at hg
            rw [← hg] at hu
            exact List.mem_of_mem_take hu
          | none =>
            simp only [hf, hs, Except.ok.injEq] at hg
            rw [← hg] at hu
            exact hu
      have hm := List.mem_filter.1 hsub
      exact ⟨u, hm.1, of_decide_eq_true hm.2, rfl⟩

theorem SendBroadcast_fans_out_witness :
    (SendBroadcast staffDB sampleHandlerEnv "Server maintenance").2
      = [Out.botSend 8 "🚨 ALERT: Server maintenance",
         Out.botSend 9 "🚨 ALERT: Server maintenance"] ∧
    SendBroadcast staffDB
        { sampleHandlerEnv with faults := { getAllAdmins := some "database is locked" } }
        "Server maintenance"
      = (.error (.io "database is locked"), []) :=
  ⟨((SendBroadcast_fans_out staffDB sampleHandlerEnv "Server maintenance").1 rfl rfl).1,
   (SendBroadcast_fans_out staffDB
      { sampleHandlerEnv with faults := { getAllAdmins := some "database is locked" } }
      "Server maintenance").2.1 _
      ((SendBroadcast_fans_out staffDB
        { sampleHandlerEnv with faults := { getAllAdmins := some "database is locked" } }
        "Server maintenance").2.2.1 "database is locked" rfl)⟩

/-- C15 (counterexample to the claim as worded): the Manager-tier user `8`, whose tier
is not Admin, is among the recipients of the broadcast. -/
theorem SendBroadcast_reaches_manager :
    managerUser ∈ staffDB.users ∧ managerUser.Rights ≠ RightsAdmin ∧
    Out.botSend managerUser.TelegramID "🚨 ALERT: Server maintenance"
      ∈ (SendBroadcast staffDB sampleHandlerEnv "Server maintenance").2 := by
  decide

/-! ## Theorems: promotion flow -/

theorem find?_isSome_of_mem {α : Type} (p : α → Bool) (l : List α) (a : α)
    (ha : a ∈ l) (hp : p a = true) : ∃ b, l.find? p = some b := by
  induction l with
  | nil => cases ha
  | cons c rest ih =>
    by_cases hc : p c = true
    · exact ⟨c, by simp [List.find?, hc]⟩
    · have hc' : p c = false := by simpa using hc
      rcases List.mem_cons.1 ha with h1 | h1
      · subst h1
        rw [hp] at hc'
        cases hc'
      · obtain ⟨b, hb⟩ := ih h1
        exact ⟨b, by simp [List.find?, hc', hb]⟩

theorem TrimPrefix_append (p s : String) : TrimPrefix (p ++ s) p = s := by
  have hp : p.data.isPrefixOf (p.data ++ s.data) = true := by
    rw [ List.isPrefixOf_iff_prefix]
    exact List.prefix_append _ _
  simp [TrimPrefix, HasPrefix, hp]

theorem eqNoCase_empty (a : String) (h : eqNoCase a "" = true) : a = "" := by
  obtain ⟨cs⟩ := a
  cases cs with
  | nil => rfl
  | cons c cs => simp [eqNoCase] at h

theorem TrimSpace_ne_empty_of_match (text : String) (u : User) (hne : u.Username ≠ "")
    (hm : eqNoCase u.Username (TrimPrefix (TrimSpace text) "@") = true) :
    TrimSpace text ≠ "" := by
  intro he
  rw [he] at hm
  have h0 : TrimPrefix "" "@" = "" := by decide
  rw [h0] at hm
  exact hne (eqNoCase_empty _ hm)

/-- C17 (as amended): in the state `waiting_username` with a valid stored tier `r`,
for every text whose trimmed form, one leading `@` dropped, equals the handle (a
non-empty stored username) of some user, ASCII case ignored, and when the store
lookup and the store update both succeed: every user with that handle gets tier `r`,
every user with a different handle is left as they were, and the session is cleared.
The stored tier is the text after `rights_` in the payload of the preceding
callback, as `handleRightsSelection` put it into the session. -/
theorem handleUserState_waiting_username_promotes (h : BotHandlers) (env : HandlerEnv)
    (message : Message) (state : UserState) (user : User) (str : String) (r : Rights)
    (u : User) (hs : state.State = "waiting_username")
    (hl : state.Data.lookup "rights" = some str) (ha : Atoi str = some r)
    (hv : Rights.IsValid r = true) (hu : u ∈ h.db.users) (hne : u.Username ≠ "")
    (hm : eqNoCase u.Username (TrimPrefix (TrimSpace message.Text) "@") = true)
    (hf1 : env.faults.getUserByUsername = none)
    (hf2 : env.faults.updateUserRightsByUsername = none) :
    (handleUserState h env message state user).1.db.users
      = h.db.users.map (fun v =>
          if eqNoCase v.Username (TrimPrefix (TrimSpace message.Text) "@") then
            { v with Rights := r }
          else v) ∧
    { u with Rights := r } ∈ (handleUserState h env message state user).1.db.users ∧
    (∀ v ∈ h.db.users,
      eqNoCase v.Username (TrimPrefix (TrimSpace message.Text) "@") = false →
      v ∈ (handleUserState h env message state user).1.db.users) ∧
    (handleUserState h env message state user).1.userStates
      = clearUserState h.userStates message.FromID ∧
    (∀ (data : String) (userID chatID messageID : Int),
      (handleRightsSelection h env ("rights_" ++ data) userID chatID messageID).1.userStates
          userID
        = some { State := "waiting_username", Data := [("rights", data)],
                 Expires := env.now + 10 * Minute }) := by
  have hne' : TrimSpace message.Text ≠ "" := TrimSpace_ne_empty_of_match _ u hne hm
  obtain ⟨t, ht⟩ := find?_isSome_of_mem
    (fun v => eqNoCase v.Username (TrimPrefix (TrimSpace message.Text) "@")) h.db.users u hu hm
  have hany : (h.db.users.any
      (fun v => eqNoCase v.Username (TrimPrefix (TrimSpace message.Text) "@"))) = true :=
    List.any_eq_true.2 ⟨u, hu, hm⟩
  have e : (handleUserState h env message state user).1
      = { userStates := clearUserState h.userStates message.FromID,
          db := { h.db with users := h.db.users.map (fun v =>
            if eqNoCase v.Username (TrimPrefix (TrimSpace message.Text) "@") then
              { v with Rights := r }
            else v) } } := by
    simp [handleUserState, hs, hl, ha, hv, hne', DB.GetUserByUsername, hf1, ht,
      DB.UpdateUserRightsByUsername, hf2, hany]
  rw [e]
  refine ⟨rfl, ?_, ?_, rfl, ?_⟩
  · exact List.mem_map.2 ⟨u, hu, by simp [hm]⟩
  · intro v hv' hno
    exact List.mem_map.2 ⟨v, hv', by simp [hno]⟩
  · intro data userID chatID messageID
    simp [handleRightsSelection, TrimPrefix_append, setUserState, mapStore]

theorem handleUserState_waiting_username_promotes_witness :
    (handleUserState usernameHandlers sampleHandlerEnv usernameMessage usernameSession
        adminUser).1.db.users
      = [sampleUser, { managerUser with Rights := 3 }, adminUser] ∧
    (handleUserState usernameHandlers sampleHandlerEnv usernameMessage usernameSession
        adminUser).1.userStates 9 = none :=
  ⟨(handleUserState_waiting_username_promotes usernameHandlers sampleHandlerEnv usernameMessage
      usernameSession adminUser "3" 3 managerUser rfl rfl (by decide) (by decide) (by decide)
      (by decide) (by decide) rfl rfl).1.trans (by decide),
   by
    rw [(handleUserState_waiting_username_promotes usernameHandlers sampleHandlerEnv
      usernameMessage usernameSession adminUser "3" 3 managerUser rfl rfl (by decide)
      (by decide) (by decide) (by decide) (by decide) rfl rfl).2.2.2.1]
    rfl⟩

/-- C17 (counterexample to the claim as worded): the text ` @BOB ` names the handle of
the Manager-tier user `bob` and the stored tier is `3`, but when the store update
comes back with an error nobody's tier changes: `bob` stays at tier `2` (the session
is cleared all the same). -/
theorem handleUserState_promotion_update_failure :
    managerUser ∈ usernameHandlers.db.users ∧
    eqNoCase managerUser.Username (TrimPrefix (TrimSpace usernameMessage.Text) "@") = true ∧
    (handleUserState usernameHandlers rightsUpdateFailsEnv usernameMessage usernameSession
        adminUser).1.db.users = [sampleUser, managerUser, adminUser] ∧
    managerUser.Rights = 2 := by
  decide

/-! ## Theorems: message entry point -/

theorem GetOrCreateUser_frame (db : DB) (env : HandlerEnv) (telegramID : Int)
    (username firstName lastName : String) (db' : DB) (u : User)
    (h : GetOrCreateUser db env telegramID username firstName lastName = .ok (db', u)) :
    db'.ideas = db.ideas ∧ db'.status = db.status ∧ db'.settings = db.settings := by
  unfold GetOrCreateUser DB.GetUserByTelegramID DB.CreateUser DB.UpdateUser at h
  cases hf : env.faults.getUserByTelegramID with
  | some msg => simp [hf] at h
  | none =>
    cases hfind : db.users.find? (fun u => decide (u.TelegramID = telegramID)) with
    | none =>
      have hnone : ∀ v ∈ db.users, ¬ v.TelegramID = telegramID := by
        intro v hv
        have := List.find?_eq_none.1 hfind v hv
        simpa using this
      have hnex : ¬ ∃ x ∈ db.users, x.TelegramID = telegramID := by
        rintro ⟨x, hx, hxt⟩
        exact hnone x hx hxt
      have hvalid : Rights.IsValid RightsDefault = true := by decide
      cases hc : env.faults.createUser with
      | some msg => simp [hf, hfind, hc] at h
      | none =>
        simp [hf, hfind, hc, hnex, hvalid] at h
        obtain ⟨h1, _⟩ := h
        subst h1
        exact ⟨rfl, rfl, rfl⟩
    | some v =>
      by_cases hd : v.Username ≠ username ∨ v.FirstName ≠ firstName ∨ v.LastName ≠ lastName
      · cases hu : env.faults.updateUser with
        | some msg => simp [hf, hfind, hd, hu] at h
        | none =>
          simp [hf, hfind, hd, hu] at h
          obtain ⟨h1, _⟩ := h
          subst h1
          exact ⟨rfl, rfl, rfl⟩
      · simp [hf, hfind, hd] at h
        obtain ⟨h1, _⟩ := h
        subst h1
        exact ⟨rfl, rfl, rfl⟩

/-- C18 (as amended): for the commands `start`, `help` and `cancel`, `handleMessage`
never runs a state continuation: its replies and the store afterwards are the same
whatever the registry holds, and the idea, status and settings stores are left as
they were. When the sender is resolved (`GetOrCreateUser` succeeds) the reply is the
language prompt, the help text or the main menu, and after `start` or `cancel` the
sender has no session at any instant, while `help` leaves the registry as it was. -/
theorem handleMessage_commands_bypass (h : BotHandlers) (env : HandlerEnv) (message : Message)
    (hc : message.Command = "start" ∨ message.Command = "help" ∨ message.Command = "cancel") :
    (∀ m : UserStates,
      (handleMessage { h with userStates := m } env message).2 = (handleMessage h env message).2 ∧
      (handleMessage { h with userStates := m } env message).1.db
        = (handleMessage h env message).1.db) ∧
    ((handleMessage h env message).1.db.ideas = h.db.ideas ∧
      (handleMessage h env message).1.db.status = h.db.status ∧
      (handleMessage h env message).1.db.settings = h.db.settings) ∧
    (∀ db' u, GetOrCreateUser h.db env message.FromID message.FromUserName
        message.FromFirstName message.FromLastName = .ok (db', u) →
      (handleMessage h env message).2
        = (if message.Command = "start" then [Out.sendLanguageSelection message.ChatID]
           else if message.Command = "help" then [Out.sendHelpMessage message.ChatID]
           else [Out.sendMainMenu message.ChatID]) ∧
      (message.Command ≠ "help" →
        (handleMessage h env message).1.userStates
          = clearUserState h.userStates message.FromID ∧
        ∀ now, getUserState (handleMessage h env message).1.userStates now message.FromID
          = none) ∧
      (message.Command = "help" → (handleMessage h env message).1.userStates = h.userStates)) := by
  cases hr : GetOrCreateUser h.db env message.FromID message.FromUserName
      message.FromFirstName message.FromLastName with
  | error e =>
    refine ⟨?_, ?_, ?_⟩
    · intro m
      simp [handleMessage, hr]
    · simp [handleMessage, hr]
    · intro db' u hok
      cases hok
  | ok p =>
    obtain ⟨db1, u1⟩ := p
    have hfr := GetOrCreateUser_frame _ _ _ _ _ _ _ _ hr
    rcases hc with hc | hc | hc
    · refine ⟨?_, ?_, ?_⟩
      · intro m
        simp [handleMessage, hr, hc]
      · simpa [handleMessage, hr, hc] using hfr
      · intro db' u hok
        simp [handleMessage, hr, hc, getUserState, clearUserState, mapDelete]
    · refine ⟨?_, ?_, ?_⟩
      · intro m
        simp [handleMessage, hr, hc]
      · simpa [handleMessage, hr, hc] using hfr
      · intro db' u hok
        simp [handleMessage, hr, hc]
    · refine ⟨?_, ?_, ?_⟩
      · intro m
        simp [handleMessage, hr, hc]
      · simpa [handleMessage, hr, hc] using hfr
      · intro db' u hok
        simp [handleMessage, hr, hc, getUserState, clearUserState, mapDelete]

theorem handleMessage_commands_bypass_witness :
    (handleMessage sampleHandlers sampleHandlerEnv cancelMessage).2 = [Out.sendMainMenu 70] ∧
    getUserState (handleMessage sampleHandlers sampleHandlerEnv cancelMessage).1.userStates 6 7
      = none :=
  ⟨((handleMessage_commands_bypass sampleHandlers sampleHandlerEnv cancelMessage
      (Or.inr (Or.inr rfl))).2.2 _ _ rfl).1,
   (((handleMessage_commands_bypass sampleHandlers sampleHandlerEnv cancelMessage
      (Or.inr (Or.inr rfl))).2.2 _ _ rfl).2.1 (by decide)).2 6⟩

/-- C18 (counterexample to the claim as worded): when the user lookup of
`GetOrCreateUser` fails, `handleMessage` returns before the command is looked at, so
after `/cancel` the sender still has the session. -/
theorem handleMessage_cancel_lookup_failure :
    cancelMessage.Command = "cancel" ∧
    (handleMessage sampleHandlers userLookupFailsEnv cancelMessage).1.userStates 7
      = some sampleSession ∧
    getUserState (handleMessage sampleHandlers userLookupFailsEnv cancelMessage).1.userStates
      5 7 = some sampleSession := by
  decide

/-- C19 (as amended): for a message that is not a `start`, `help` or `cancel` command
and whose sender is resolved (`GetOrCreateUser` succeeds): if the sender has a stored
session that the clock is not after (`now ≤ expiry`), `handleMessage` is the
continuation `handleUserState` run on that session; if the sender has no session, or
only one whose expiry has passed, it shows the main menu and nothing else, leaving the
session registry and the idea, status and settings stores as they were. -/
theorem handleMessage_dispatch (h : BotHandlers) (env : HandlerEnv) (message : Message)
    (db' : DB) (u : User) (hc1 : message.Command ≠ "start") (hc2 : message.Command ≠ "help")
    (hc3 : message.Command ≠ "cancel")
    (hr : GetOrCreateUser h.db env message.FromID message.FromUserName message.FromFirstName
      message.FromLastName = .ok (db', u)) :
    (∀ s, h.userStates message.FromID = some s → env.now ≤ s.Expires →
      handleMessage h env message = handleUserState { h with db := db' } env message s u) ∧
    ((h.userStates message.FromID = none ∨
        ∃ s, h.userStates message.FromID = some s ∧ s.Expires < env.now) →
      (handleMessage h env message).2 = [Out.sendMainMenu message.ChatID] ∧
      (handleMessage h env message).1.userStates = h.userStates ∧
      (handleMessage h env message).1.db.ideas = h.db.ideas ∧
      (handleMessage h env message).1.db.status = h.db.status ∧
      (handleMessage h env message).1.db.settings = h.db.settings) := by
  have hfr := GetOrCreateUser_frame _ _ _ _ _ _ _ _ hr
  constructor
  · intro s hs hle
    have hg : getUserState h.userStates env.now message.FromID = some s :=
      (getUserState_eq_some _ _ _ _).2 ⟨hs, hle⟩
    simp [handleMessage, hr, hc1, hc2, hc3, hg]
  · intro hno
    have hg : getUserState h.userStates env.now message.FromID = none := by
      rcases hno with hn | ⟨s, hs, hlt⟩
      · simp [getUserState, hn]
      · have hx : after env.now s.Expires = true := (after_iff _ _).2 hlt
        simp [getUserState, hs, hx]
    simpa [handleMessage, hr, hc1, hc2, hc3, hg] using hfr

theorem handleMessage_dispatch_witness :
    handleMessage sampleHandlers sampleHandlerEnv ideaMessage
      = handleUserState
          { sampleHandlers with db := { sampleDB with users :=
              [{ sampleUser with ID := 1, Language := "ua" }] } }
          sampleHandlerEnv ideaMessage sampleSession { sampleUser with ID := 0, Language := "ua" } ∧
    (handleMessage sampleHandlers { sampleHandlerEnv with now := 600000000001 } ideaMessage).2
      = [Out.sendMainMenu 70] :=
  ⟨(handleMessage_dispatch sampleHandlers sampleHandlerEnv ideaMessage _ _
      (by decide) (by decide) (by decide) rfl).1 sampleSession rfl (by decide),
   ((handleMessage_dispatch sampleHandlers { sampleHandlerEnv with now := 600000000001 }
      ideaMessage _ _ (by decide) (by decide) (by decide) rfl).2
      (Or.inr ⟨sampleSession, rfl, by decide⟩)).1⟩

/-- C19 (counterexample to the claim as worded): the sender has an unexpired session
in the state `waiting_idea` and sends a plain text, but the user lookup of
`GetOrCreateUser` fails: `handleMessage` answers with the error text and returns, the
continuation is not run and no Idea is persisted. -/
theorem handleMessage_text_lookup_failure :
    ideaMessage.Command = "" ∧
    getUserState ideaHandlers.userStates userLookupFailsEnv.now 7 = some sampleSession ∧
    (handleMessage ideaHandlers userLookupFailsEnv ideaMessage).2
      = [Out.sendMessage 70 "❌ An error occurred. Please try again later."] ∧
    (handleMessage ideaHandlers userLookupFailsEnv ideaMessage).1.db.ideas = [] ∧
    (handleUserState ideaHandlers userLookupFailsEnv ideaMessage sampleSession
        sampleUser).1.db.ideas ≠ [] := by
  decide

/-! ## Theorems: manual status changes -/

theorem handleTechStatusUpdate_settings (h : BotHandlers) (env : HandlerEnv) (data : String)
    (chatID messageID : Int) (user : User) :
    (handleTechStatusUpdate h env data chatID messageID user).1.db.settings = h.db.settings := by
  unfold handleTechStatusUpdate DB.UpdateTechnicalStatus
  cases hf : env.faults.updateTechnicalStatus <;> simp [hf]

theorem handleOpenStatusUpdate_settings (h : BotHandlers) (env : HandlerEnv) (data : String)
    (chatID messageID : Int) (user : User) (hf1 : env.faults.updateOpenStatus = none)
    (hf2 : env.faults.updateAutoCloseLastUser = none) :
    (handleOpenStatusUpdate h env data chatID messageID user).1.db.settings
      = { h.db.settings with LastStatusBy := user.GetDisplayName } := by
  simp [handleOpenStatusUpdate, DB.UpdateOpenStatus, DB.UpdateAutoCloseLastUser, hf1, hf2]

/-- C20 (the code at the failing input): the Manager `bob` presses `tech_false` and
the change of the technical flag succeeds (the flag goes from true to false, stamped
with `@bob`), yet `LastStatusBy` is not set to `@bob`: it keeps its old value. The
same press on `open_false` does record `@bob`. -/
theorem handleTechStatusUpdate_skips_lastStatusBy :
    managerUser.GetDisplayName = "@bob" ∧
    (handleTechStatusUpdate { userStates := emptyStates, db := staffDB } sampleHandlerEnv
        "tech_false" 80 3 managerUser).1.db.status
      = { sampleStatus with TechnicalStatus := false, UpdatedAt := 5, UpdatedBy := "@bob" } ∧
    (handleTechStatusUpdate { userStates := emptyStates, db := staffDB } sampleHandlerEnv
        "tech_false" 80 3 managerUser).1.db.settings.LastStatusBy = "" ∧
    (handleOpenStatusUpdate { userStates := emptyStates, db := staffDB } sampleHandlerEnv
        "open_false" 80 3 managerUser).1.db.settings.LastStatusBy = "@bob" := by
  decide

/-! ## Theorems: idea pager -/

theorem HasPrefix_append (p s : String) : HasPrefix (p ++ s) p = true := by
  have hp : p.data.isPrefixOf (p.data ++ s.data) = true := by
    rw [ List.isPrefixOf_iff_prefix]
    exact List.prefix_append _ _
  simp [HasPrefix]

theorem parseDigits_all_digits (ds : List Char) (acc n : Nat)
    (h : parseDigits ds acc = some n) : ds.all Char.isDigit = true := by
  induction ds generalizing acc with
  | nil => rfl
  | cons c cs ih =>
    unfold parseDigits at h
    by_cases hc : c.isDigit = true
    · simp only [hc, if_true] at h
      simp [hc, ih _ h]
    · simp [hc] at h

theorem Atoi_range (s : String) (k : Int) (h : Atoi s = some k) :
    -(2 ^ 63) ≤ k ∧ k < 2 ^ 63 := by
  unfold Atoi at h
  split at h
  · cases h
  · rename_i ds hd
    split_ifs at h with he
    cases hp : parseDigits ds 0 with
    | none => simp [hp] at h
    | some n =>
      simp only [hp] at h
      split_ifs at h with hn
      cases h
      omega
  · rename_i ds hd
    split_ifs at h with he
    cases hp : parseDigits ds 0 with
    | none => simp [hp] at h
    | some n =>
      simp only [hp] at h
      split_ifs at h with hn
      cases h
      omega
  · cases hp : parseDigits s.data 0 with
    | none => simp [hp] at h
    | some n =>
      simp only [hp] at h
      split_ifs at h with hn
      cases h
      omega

theorem showIdea_in_range (chatID messageID : Int) (ideas : List Idea) (i : Int)
    (h0 : 0 ≤ i) (h1 : i < ideas.length) :
    ∃ idea, ideas[i.toNat]? = some idea ∧
      showIdea chatID messageID ideas i
        = [Out.showIdea chatID messageID i ideas.length idea
            (generateIdeaKeyboard i ideas.length idea.ID)] := by
  have hlt : i.toNat < ideas.length := by omega
  refine ⟨ideas[i.toNat], List.getElem?_eq_getElem hlt, ?_⟩
  have hg : ¬ (i < 0 ∨ i ≥ ideas.length) := by omega
  simp [showIdea, hg, List.getElem?_eq_getElem hlt]

theorem showIdea_out_of_range (chatID messageID : Int) (ideas : List Idea) (i : Int)
    (h : ¬ (0 ≤ i ∧ i < ideas.length)) : showIdea chatID messageID ideas i = [] := by
  have hg : i < 0 ∨ i ≥ ideas.length := by omega
  simp [showIdea, hg]

theorem showIdea_no_panic (chatID messageID : Int) (ideas : List Idea) (i : Int) :
    Out.indexOutOfRange ∉ showIdea chatID messageID ideas i := by
  by_cases h : 0 ≤ i ∧ i < ideas.length
  · obtain ⟨idea, _, he⟩ := showIdea_in_range chatID messageID ideas i h.1 h.2
    simp [he]
  · simp [showIdea_out_of_range chatID messageID ideas i h]

theorem showIdea_wrapInt (chatID messageID : Int) (ideas : List Idea) (x : Int)
    (hlen : (ideas.length : Int) < 2 ^ 63) (hlo : -(2 ^ 63) - 1 ≤ x) (hhi : x ≤ 2 ^ 63) :
    showIdea chatID messageID ideas (wrapInt x) = showIdea chatID messageID ideas x := by
  by_cases h1 : x = 2 ^ 63
  · have hw : wrapInt x = -(2 ^ 63) := by unfold wrapInt; omega
    rw [hw, showIdea_out_of_range _ _ _ _ (by omega), showIdea_out_of_range _ _ _ _ (by omega)]
  · by_cases h2 : x = -(2 ^ 63) - 1
    · have hw : wrapInt x = 2 ^ 63 - 1 := by unfold wrapInt; omega
      rw [hw, showIdea_out_of_range _ _ _ _ (by omega),
        showIdea_out_of_range _ _ _ _ (by omega)]
    · have hw : wrapInt x = x := by
        unfold wrapInt
        omega
      rw [hw]

theorem navigationIndex_prev (suffix : String) :
    navigationIndex ("idea_prev_" ++ suffix) = wrapInt (AtoiValue suffix - 1) := by
  simp [navigationIndex, HasPrefix_append, TrimPrefix_append]

theorem navigationIndex_next (suffix : String) :
    navigationIndex ("idea_next_" ++ suffix) = wrapInt (AtoiValue suffix + 1) := by
  have hn : HasPrefix ("idea_next_" ++ suffix) "idea_prev_" = false := by
    simp [HasPrefix, List.isPrefixOf]
  simp [navigationIndex, hn, HasPrefix_append, TrimPrefix_append]

theorem parseDigits_le (ds : List Char) (acc n : Nat) (h : parseDigits ds acc = some n) :
    acc ≤ n := by
  induction ds generalizing acc with
  | nil =>
    simp only [parseDigits, Option.some.injEq] at h
    omega
  | cons c cs ih =>
    unfold parseDigits at h
    by_cases hc : c.isDigit = true
    · simp only [hc, if_true] at h
      have := ih _ h
      omega
    · simp [hc] at h

theorem parseUintLoop_of_parseDigits (ds : List Char) (acc n : Nat)
    (h : parseDigits ds acc = some n) (hn : n < 2 ^ 64) : parseUintLoop ds acc = .ok n := by
  induction ds generalizing acc with
  | nil =>
    simp only [parseDigits, Option.some.injEq] at h
    simp [parseUintLoop, h]
  | cons c cs ih =>
    unfold parseDigits at h
    by_cases hc : c.isDigit = true
    · simp only [hc, if_true] at h
      have hle := parseDigits_le _ _ _ h
      have h1 : ¬ acc ≥ (2 ^ 64 - 1) / 10 + 1 := by omega
      have h2 : ¬ acc * 10 + (c.toNat - 48) > 2 ^ 64 - 1 := by omega
      unfold parseUintLoop
      simp only [hc, Bool.not_true, Bool.false_eq_true, if_false, h1, h2]
      exact ih _ h
    · simp [hc] at h

theorem parseDigits_of_parseUintLoop (ds : List Char) (acc n : Nat)
    (h : parseUintLoop ds acc = .ok n) (hacc : acc < 2 ^ 64) :
    parseDigits ds acc = some n ∧ n < 2 ^ 64 := by
  induction ds generalizing acc with
  | nil =>
    simp only [parseUintLoop, Except.ok.injEq] at h
    subst h
    exact ⟨rfl, hacc⟩
  | cons c cs ih =>
    unfold parseUintLoop at h
    by_cases hc : c.isDigit = true
    · simp only [hc, Bool.not_true, Bool.false_eq_true, if_false] at h
      split_ifs at h with h1 h2
      unfold parseDigits
      simp only [hc, if_true]
      exact ih _ h (by omega)
    · simp [hc] at h

theorem ParseUint_of_parseDigits (ds : List Char) (n : Nat) (hne : ds ≠ [])
    (h : parseDigits ds 0 = some n) (hn : n < 2 ^ 64) : ParseUint ds = (n, none) := by
  simp [ParseUint, hne, parseUintLoop_of_parseDigits ds 0 n h hn]

theorem parseDigits_of_ParseUint (ds : List Char) (h : (ParseUint ds).2 = none) :
    ds ≠ [] ∧ parseDigits ds 0 = some (ParseUint ds).1 := by
  unfold ParseUint at h ⊢
  by_cases hne : ds = []
  · simp [hne] at h
  · simp only [hne, if_false] at h ⊢
    cases hl : parseUintLoop ds 0 with
    | ok n => exact ⟨hne, (parseDigits_of_parseUintLoop ds 0 n hl (by decide)).1⟩
    | error e =>
      cases e <;> simp [hl] at h

theorem ParseUint_lt (ds : List Char) : (ParseUint ds).1 < 2 ^ 64 := by
  unfold ParseUint
  by_cases hne : ds = []
  · simp [hne]
  · simp only [hne, if_false]
    cases hl : parseUintLoop ds 0 with
    | ok n => exact (parseDigits_of_parseUintLoop ds 0 n hl (by decide)).2
    | error e => cases e <;> simp

theorem ParseUint_range (ds : List Char) (h : (ParseUint ds).2 = some .range) :
    (ParseUint ds).1 = 2 ^ 64 - 1 := by
  unfold ParseUint at h ⊢
  by_cases hne : ds = []
  · simp [hne] at h
  · simp only [hne, if_false] at h ⊢
    cases hl : parseUintLoop ds 0 with
    | ok n => simp [hl] at h
    | error e => cases e <;> simp [hl] at h ⊢

theorem ParseInt_invalid (s : String) (h : (ParseInt s).2 = some .invalid) :
    (ParseInt s).1 = 0 := by
  unfold ParseInt at h ⊢
  cases hd : s.data with
  | nil => simp
  | cons c cs =>
    simp only [hd] at h ⊢
    split_ifs at h ⊢ <;> simp_all

theorem ParseInt_range (s : String) (h : (ParseInt s).2 = some .range) :
    (ParseInt s).1 = 2 ^ 63 - 1 ∨ (ParseInt s).1 = -(2 ^ 63) := by
  unfold ParseInt at h ⊢
  cases hd : s.data with
  | nil => simp [hd] at h
  | cons c cs =>
    simp only [hd] at h ⊢
    split_ifs at h ⊢ <;> simp_all

theorem ParseInt_of_Atoi (s : String) (k : Int) (h : Atoi s = some k) :
    ParseInt s = (k, none) := by
  unfold Atoi at h
  split at h
  · cases h
  · rename_i ds hd
    split_ifs at h with he
    cases hp : parseDigits ds 0 with
    | none => simp [hp] at h
    | some n =>
      simp only [hp] at h
      split_ifs at h with hn
      cases h
      have hu := ParseUint_of_parseDigits ds n he hp (by omega)
      have h1 : ¬ n > 2 ^ 63 := by omega
      simp [ParseInt, hd, hu, h1]
      omega
  · rename_i ds hd
    split_ifs at h with he
    cases hp : parseDigits ds 0 with
    | none => simp [hp] at h
    | some n =>
      simp only [hp] at h
      split_ifs at h with hn
      cases h
      have hu := ParseUint_of_parseDigits ds n he hp (by omega)
      have h1 : ¬ n ≥ 2 ^ 63 := by omega
      simp [ParseInt, hd, hu, h1]
      omega
  · rename_i hnil hminus hplus
    cases hp : parseDigits s.data 0 with
    | none => simp [hp] at h
    | some n =>
      simp only [hp] at h
      split_ifs at h with hn
      cases h
      cases hd : s.data with
      | nil => exact absurd hd hnil
      | cons c cs =>
        have hm : c ≠ '-' := fun hc => hminus cs (by rw [hd, hc])
        have hpl : c ≠ '+' := fun hc => hplus cs (by rw [hd, hc])
        rw [hd] at hp
        have hu := ParseUint_of_parseDigits (c :: cs) n (by simp) hp (by omega)
        have h1 : ¬ n ≥ 2 ^ 63 := by omega
        simp [ParseInt, hd, hm, hpl, hu, h1]
        omega

theorem AtoiValue_of_Atoi (s : String) (k : Int) (h : Atoi s = some k) : AtoiValue s = k := by
  simp [AtoiValue, ParseInt_of_Atoi s k h]

theorem Atoi_of_ParseInt (s : String) (h : (ParseInt s).2 = none) :
    Atoi s = some (ParseInt s).1 := by
  unfold ParseInt at h ⊢
  cases hd : s.data with
  | nil => simp [hd] at h
  | cons c cs =>
    simp only [hd] at h ⊢
    by_cases hm : c = '-'
    · subst hm
      simp only [decide_True, or_true, if_true, Bool.not_true, Bool.false_and,
        Bool.false_eq_true, if_false, Bool.true_and, decide_eq_true_eq] at h ⊢
      split_ifs at h ⊢ with h1 h2
      have hu : (ParseUint cs).2 = none := by
        cases hx : (ParseUint cs).2 with
        | none => rfl
        | some e =>
          cases e
          · exact absurd hx h1
          · have := ParseUint_range cs hx
            omega
      obtain ⟨hne, hp⟩ := parseDigits_of_ParseUint cs hu
      have hle : (ParseUint cs).1 ≤ 2 ^ 63 := by omega
      simp [Atoi, hd, hne, hp, hle]
      omega
    · by_cases hpl : c = '+'
      · subst hpl
        simp only [hm, decide_False, true_or, if_true, Bool.not_false, Bool.true_and,
          decide_eq_true_eq, Bool.false_and, Bool.false_eq_true, if_false] at h ⊢
        split_ifs at h ⊢ with h1 h2
        have hu : (ParseUint cs).2 = none := by
          cases hx : (ParseUint cs).2 with
          | none => rfl
          | some e =>
            cases e
            · exact absurd hx h1
            · have := ParseUint_range cs hx
              omega
        obtain ⟨hne, hp⟩ := parseDigits_of_ParseUint cs hu
        have hlt : (ParseUint cs).1 < 2 ^ 63 := by omega
        simp [Atoi, hd, hne, hp, hlt]
        omega
      · simp only [hm, hpl, decide_False, or_self, if_false, Bool.not_false, Bool.true_and,
          decide_eq_true_eq, Bool.false_and, Bool.false_eq_true] at h ⊢
        split_ifs at h ⊢ with h1 h2
        have hu : (ParseUint (c :: cs)).2 = none := by
          cases hx : (ParseUint (c :: cs)).2 with
          | none => rfl
          | some e =>
            cases e
            · exact absurd hx h1
            · have := ParseUint_range (c :: cs) hx
              omega
        obtain ⟨hne, hp⟩ := parseDigits_of_ParseUint (c :: cs) hu
        have hlt : (ParseUint (c :: cs)).1 < 2 ^ 63 := by omega
        unfold Atoi
        split
        · rename_i heq
          rw [hd] at heq
          cases heq
        · rename_i ds heq
          rw [hd] at heq
          simp only [List.cons.injEq] at heq
          exact absurd heq.1 hm
        · rename_i ds heq
          rw [hd] at heq
          simp only [List.cons.injEq] at heq
          exact absurd heq.1 hpl
        · rw [hd]
          simp [hp, hlt]
          omega

theorem ParseInt_error_of_Atoi_none (s : String) (h : Atoi s = none) :
    (ParseInt s).2 = some .invalid ∨ (ParseInt s).2 = some .range := by
  cases hx : (ParseInt s).2 with
  | none =>
    rw [Atoi_of_ParseInt s hx] at h
    cases h
  | some e => cases e <;> simp

/-- C21 (as amended): against every freshly fetched idea list and for every payload,
`handleIdeaNavigation` never reads the list outside its bounds and shows either
nothing or exactly one idea, the one at an index inside `[0, length)`. For a payload
`idea_prev_<k>` or `idea_next_<k>` with `k` a number in the range of `int` it shows
the idea at index `k - 1` or `k + 1` when that index lies in `[0, length)` and nothing
otherwise. Every other `k` is rejected by `strconv.Atoi` with one of its two errors,
which the handler drops: a `k` rejected with a syntax error is read as `0` (so
`idea_prev_` shows nothing and `idea_next_` shows index `1` when the list has it); a
`k` rejected with a range error (a number beyond the range of `int`, or a text whose
leading digits already pass `2^64 - 1`) shows nothing. -/
theorem handleIdeaNavigation_bounds (h : BotHandlers) (env : HandlerEnv) (ideas : List Idea)
    (suffix : String) (chatID messageID : Int)
    (hfetch : h.db.GetAllIdeas env = .ok ideas) (hlen : (ideas.length : Int) < 2 ^ 63 - 1) :
    (∀ data, Out.indexOutOfRange ∉ (handleIdeaNavigation h env data chatID messageID).2 ∧
      ((handleIdeaNavigation h env data chatID messageID).2 = [] ∨
        ∃ (i : Int) (idea : Idea), 0 ≤ i ∧ i < ideas.length ∧ ideas[i.toNat]? = some idea ∧
          (handleIdeaNavigation h env data chatID messageID).2
            = [Out.showIdea chatID messageID i ideas.length idea
                (generateIdeaKeyboard i ideas.length idea.ID)])) ∧
    (∀ k, Atoi suffix = some k →
      (handleIdeaNavigation h env ("idea_prev_" ++ suffix) chatID messageID).2
        = showIdea chatID messageID ideas (k - 1) ∧
      (handleIdeaNavigation h env ("idea_next_" ++ suffix) chatID messageID).2
        = showIdea chatID messageID ideas (k + 1)) ∧
    (∀ i : Int,
      (0 ≤ i → i < ideas.length →
        ∃ idea, ideas[i.toNat]? = some idea ∧
          showIdea chatID messageID ideas i
            = [Out.showIdea chatID messageID i ideas.length idea
                (generateIdeaKeyboard i ideas.length idea.ID)]) ∧
      (¬ (0 ≤ i ∧ i < ideas.length) → showIdea chatID messageID ideas i = [])) ∧
    (Atoi suffix = none →
      (ParseInt suffix).2 = some .invalid ∨ (ParseInt suffix).2 = some .range) ∧
    ((ParseInt suffix).2 = some .invalid →
      (handleIdeaNavigation h env ("idea_prev_" ++ suffix) chatID messageID).2 = [] ∧
      (handleIdeaNavigation h env ("idea_next_" ++ suffix) chatID messageID).2
        = showIdea chatID messageID ideas 1) ∧
    ((ParseInt suffix).2 = some .range →
      (handleIdeaNavigation h env ("idea_prev_" ++ suffix) chatID messageID).2 = [] ∧
      (handleIdeaNavigation h env ("idea_next_" ++ suffix) chatID messageID).2 = []) := by
  have e : ∀ data, (handleIdeaNavigation h env data chatID messageID).2
      = showIdea chatID messageID ideas (navigationIndex data) := by
    intro data
    simp [handleIdeaNavigation, hfetch]
  refine ⟨?_, ?_, ?_, ?_, ?_, ?_⟩
  · intro data
    rw [e]
    refine ⟨showIdea_no_panic _ _ _ _, ?_⟩
    by_cases hr : 0 ≤ navigationIndex data ∧ navigationIndex data < ideas.length
    · obtain ⟨idea, hi, he⟩ := showIdea_in_range chatID messageID ideas _ hr.1 hr.2
      exact Or.inr ⟨_, idea, hr.1, hr.2, hi, he⟩
    · exact Or.inl (showIdea_out_of_range _ _ _ _ hr)
  · intro k hk
    have hr := Atoi_range suffix k hk
    rw [e, e, navigationIndex_prev, navigationIndex_next, AtoiValue_of_Atoi suffix k hk]
    exact ⟨showIdea_wrapInt _ _ _ _ (by omega) (by omega) (by omega),
      showIdea_wrapInt _ _ _ _ (by omega) (by omega) (by omega)⟩
  · intro i
    exact ⟨fun h0 h1 => showIdea_in_range chatID messageID ideas i h0 h1,
      fun hn => showIdea_out_of_range chatID messageID ideas i hn⟩
  · exact ParseInt_error_of_Atoi_none suffix
  · intro hd
    have hv : AtoiValue suffix = 0 := ParseInt_invalid suffix hd
    rw [e, e, navigationIndex_prev, navigationIndex_next, hv]
    have h1 : wrapInt (0 - 1) = -1 := by unfold wrapInt; omega
    have h2 : wrapInt (0 + 1) = 1 := by unfold wrapInt; omega
    rw [h1, h2]
    exact ⟨showIdea_out_of_range _ _ _ _ (by omega), rfl⟩
  · intro hd
    rw [e, e, navigationIndex_prev, navigationIndex_next]
    have hv : AtoiValue suffix = 2 ^ 63 - 1 ∨ AtoiValue suffix = -(2 ^ 63) :=
      ParseInt_range suffix hd
    rcases hv with hv | hv
    · rw [hv]
      have h1 : wrapInt (2 ^ 63 - 1 - 1) = 2 ^ 63 - 2 := by unfold wrapInt; omega
      have h2 : wrapInt (2 ^ 63 - 1 + 1) = -(2 ^ 63) := by unfold wrapInt; omega
      rw [h1, h2]
      exact ⟨showIdea_out_of_range _ _ _ _ (by omega),
        showIdea_out_of_range _ _ _ _ (by omega)⟩
    · rw [hv]
      have h1 : wrapInt (-(2 ^ 63) - 1) = 2 ^ 63 - 1 := by unfold wrapInt; omega
      have h2 : wrapInt (-(2 ^ 63) + 1) = -(2 ^ 63) + 1 := by unfold wrapInt; omega
      rw [h1, h2]
      exact ⟨showIdea_out_of_range _ _ _ _ (by omega),
        showIdea_out_of_range _ _ _ _ (by omega)⟩

theorem handleIdeaNavigation_bounds_witness :
    (handleIdeaNavigation pagerHandlers sampleHandlerEnv ("idea_next_" ++ "0") 70 3).2
      = showIdea 70 3
          [{ ID := 2, UserID := 8, Username := "bob", Content := "longer hours",
             CreatedAt := 20 },
           { ID := 1, UserID := 7, Username := "ann", Content := "more tea", CreatedAt := 10 }]
          (0 + 1) ∧
    (handleIdeaNavigation pagerHandlers sampleHandlerEnv ("idea_prev_" ++ "x") 70 3).2 = [] ∧
    (handleIdeaNavigation pagerHandlers sampleHandlerEnv
      ("idea_next_" ++ "99999999999999999999x") 70 3).2 = [] ∧
    (handleIdeaNavigation pagerHandlers sampleHandlerEnv
      ("idea_next_" ++ "9223372036854775807") 70 3).2 = [] :=
  ⟨((handleIdeaNavigation_bounds pagerHandlers sampleHandlerEnv _ "0" 70 3 rfl
      (by decide)).2.1 0 (by decide)).2,
   ((handleIdeaNavigation_bounds pagerHandlers sampleHandlerEnv
      [{ ID := 2, UserID := 8, Username := "bob", Content := "longer hours", CreatedAt := 20 },
       { ID := 1, UserID := 7, Username := "ann", Content := "more tea", CreatedAt := 10 }]
      "x" 70 3 rfl (by decide)).2.2.2.2.1 (by decide)).1,
   ((handleIdeaNavigation_bounds pagerHandlers sampleHandlerEnv
      [{ ID := 2, UserID := 8, Username := "bob", Content := "longer hours", CreatedAt := 20 },
       { ID := 1, UserID := 7, Username := "ann", Content := "more tea", CreatedAt := 10 }]
      "99999999999999999999x" 70 3 rfl (by decide)).2.2.2.2.2 (by decide)).2,
   by
    rw [((handleIdeaNavigation_bounds pagerHandlers sampleHandlerEnv
      [{ ID := 2, UserID := 8, Username := "bob", Content := "longer hours", CreatedAt := 20 },
       { ID := 1, UserID := 7, Username := "ann", Content := "more tea", CreatedAt := 10 }]
      "9223372036854775807" 70 3 rfl (by decide)).2.1 9223372036854775807 (by decide)).2]
    exact showIdea_out_of_range _ _ _ _ (by decide)⟩

/-- C21 (counterexample to the claim as worded): in the payload `idea_next_abc` the
index `abc` is not a number, yet against a list of two ideas `handleIdeaNavigation`
does not show nothing: it shows the idea at index `1`. -/
theorem handleIdeaNavigation_not_a_number :
    Atoi "abc" = none ∧
    (handleIdeaNavigation pagerHandlers sampleHandlerEnv "idea_next_abc" 70 3).2
      = [Out.showIdea 70 3 1 2
          { ID := 1, UserID := 7, Username := "ann", Content := "more tea", CreatedAt := 10 }
          (generateIdeaKeyboard 1 2 1)] := by
  decide

/-! ## Theorems: user records -/

theorem routeCallback_rule (rule : Rule) (hr : rule ∈ gatedRules ++ openRules)
    (c : CallbackQuery) (user : User) (hm : rule.pattern.matchesData c.Data = true)
    (hreq : rule.required ≤ user.Rights) : routeCallback c user = rule.handler c := by
  rcases List.mem_append.1 hr with hg | ho
  · exact ((routeCallback_gatedRule rule hg c user hm).1).2 hreq
  · exact routeCallback_openRule rule ho c user hm

theorem rule_handler_ne_unknownReply (rule : Rule) (hr : rule ∈ gatedRules ++ openRules)
    (c : CallbackQuery) : rule.handler c ≠ unknownReply c := by
  simp only [gatedRules, openRules, List.cons_append, List.nil_append, List.mem_cons,
    List.mem_singleton, List.not_mem_nil, or_false] at hr
  rcases hr with h | h | h | h | h | h | h | h | h | h | h | h | h | h | h | h | h | h | h | h <;>
    subst h <;> simp [unknownReply]

theorem menu_buttons_have_rules :
    ∀ T ∈ [RightsDefault, RightsManager, RightsAdmin], ∀ b ∈ (GenerateKeyboard T).flatten,
      ∃ rule ∈ gatedRules ++ openRules,
        rule.pattern.matchesData b.Callback = true ∧ rule.required ≤ T := by
  decide

/-- C23: for every tier `T` among Default, Manager and Admin, every button of
`GenerateKeyboard T` carries a payload that `routeCallback` routes, for a user of tier
`T`, to the handler of its rule in the routing table and not to the unknown-command
reply; and the Default-tier menu consists of exactly the four ungated buttons
`check_status`, `send_idea`, `notifications` and `change_language`. -/
theorem GenerateKeyboard_buttons_routed (T : Rights) (user : User) (c : CallbackQuery)
    (b : Button)
    (hT : T = RightsDefault ∨ T = RightsManager ∨ T = RightsAdmin)
    (hu : user.Rights = T) (hb : b ∈ (GenerateKeyboard T).flatten) (hc : c.Data = b.Callback) :
    (∃ rule ∈ gatedRules ++ openRules, rule.pattern.matchesData c.Data = true ∧
      routeCallback c user = rule.handler c) ∧
    routeCallback c user ≠ unknownReply c ∧
    (GenerateKeyboard RightsDefault).flatten.map (fun b => b.Callback)
      = ["check_status", "send_idea", "notifications", "change_language"] ∧
    (∀ b' ∈ (GenerateKeyboard RightsDefault).flatten,
      ∃ rule ∈ openRules, rule.pattern.matchesData b'.Callback = true) := by
  have hmem : T ∈ [RightsDefault, RightsManager, RightsAdmin] := by
    rcases hT with h | h | h <;> simp [h]
  obtain ⟨rule, hr, hm, hreq⟩ := menu_buttons_have_rules T hmem b hb
  rw [← hc] at hm
  rw [← hu] at hreq
  have he := routeCallback_rule rule hr c user hm hreq
  refine ⟨⟨rule, hr, hm, he⟩, ?_, by decide, by decide⟩
  rw [he]
  exact rule_handler_ne_unknownReply rule hr c

theorem GenerateKeyboard_buttons_routed_witness :
    routeCallback { sampleCallback with Data := "set_tech_status" } managerUser
      ≠ unknownReply { sampleCallback with Data := "set_tech_status" } :=
  (GenerateKeyboard_buttons_routed RightsManager managerUser
    { sampleCallback with Data := "set_tech_status" }
    { TextKey := "btn_set_tech_status", Callback := "set_tech_status" }
    (Or.inr (Or.inl rfl)) rfl (by decide) rfl).2.1

/-! ## Theorems: language selection -/

theorem ToLower_ascii_word (lower : Char → Char)
    (hascii : ∀ c : Char, c.toNat < 128 → lower c = asciiLower c) :
    ToLower lower "en" = "en" ∧ ToLower lower "ua" = "ua" := by
  constructor
  · show String.mk [lower 'e', lower 'n'] = "en"
    rw [hascii 'e' (by decide), hascii 'n' (by decide)]
    decide
  · show String.mk [lower 'u', lower 'a'] = "ua"
    rw [hascii 'u' (by decide), hascii 'a' (by decide)]
    decide

theorem ParseLanguage_cases (lower : Char → Char) (X : String) :
    ParseLanguage lower X = LangEN ∨ ParseLanguage lower X = LangUA := by
  unfold ParseLanguage
  simp only []
  split_ifs
  · exact Or.inl rfl
  · exact Or.inr rfl

/-- C24: `handleLanguageSelection` with payload `lang_<X>` sets the language of the
user struct to `ParseLanguage X` and issues the store update with that value, so that
once the store accepts the update the row of the user holds it. `ParseLanguage X` is
`en` exactly when `X`, lower-cased by `strings.ToLower`, is `en`, `eng` or `english`,
and `ua` otherwise; the result is always a valid language; and `ParseLanguage` is
idempotent on its own result (`unicode.ToLower` folds ASCII capitals and leaves other
ASCII runes alone). -/
theorem handleLanguageSelection_stores_parsed (lower : Char → Char) (h : BotHandlers)
    (env : HandlerEnv) (X : String) (chatID messageID : Int) (user : User)
    (hascii : ∀ c : Char, c.toNat < 128 → lower c = asciiLower c) :
    (handleLanguageSelection lower h env ("lang_" ++ X) chatID messageID user).2.1.Language
      = ParseLanguage lower X ∧
    (∀ db', h.db.UpdateUserLanguage env user.TelegramID (ParseLanguage lower X) = .ok db' →
      (handleLanguageSelection lower h env ("lang_" ++ X) chatID messageID user).1.db = db' ∧
      (∃ u ∈ db'.users, u.TelegramID = user.TelegramID) ∧
      ∀ u ∈ db'.users, u.TelegramID = user.TelegramID → u.Language = ParseLanguage lower X) ∧
    (env.faults.updateUserLanguage = none → (∃ u ∈ h.db.users, u.TelegramID = user.TelegramID) →
      ∃ db', h.db.UpdateUserLanguage env user.TelegramID (ParseLanguage lower X) = .ok db') ∧
    (ParseLanguage lower X = "en" ↔
      (ToLower lower X = "en" ∨ ToLower lower X = "eng" ∨ ToLower lower X = "english")) ∧
    (ParseLanguage lower X ≠ "en" → ParseLanguage lower X = "ua") ∧
    Language.IsValid (ParseLanguage lower X) = true ∧
    ParseLanguage lower (ParseLanguage lower X) = ParseLanguage lower X := by
  have htrim : TrimPrefix ("lang_" ++ X) "lang_" = X := TrimPrefix_append "lang_" X
  refine ⟨?_, ?_, ?_, ?_, ?_, ?_, ?_⟩
  · simp [handleLanguageSelection, htrim]
  · intro db' hok
    refine ⟨by simp [handleLanguageSelection, htrim, hok], ?_⟩
    unfold DB.UpdateUserLanguage at hok
    split at hok
    · cases hok
    · split_ifs at hok with hany
      cases hok
      obtain ⟨w, hw, hwt⟩ := List.any_eq_true.1 hany
      have hwt := of_decide_eq_true hwt
      constructor
      · refine ⟨{ w with Language := ParseLanguage lower X }, ?_, hwt⟩
        simp only [List.mem_map]
        exact ⟨w, hw, by simp [hwt]⟩
      · intro u hu hut
        simp only [List.mem_map] at hu
        obtain ⟨v, _, hv⟩ := hu
        by_cases hvt : v.TelegramID = user.TelegramID
        · simp [hvt] at hv
          rw [← hv]
        · simp [hvt] at hv
          rw [← hv] at hut
          exact absurd hut hvt
  · intro hf ⟨u, hu, hut⟩
    have hany : h.db.users.any (fun u => decide (u.TelegramID = user.TelegramID)) = true :=
      List.any_eq_true.2 ⟨u, hu, by simp [hut]⟩
    simp [DB.UpdateUserLanguage, hf, hany]
  · unfold ParseLanguage
    simp only []
    split_ifs with ht
    · simp [LangEN, ht]
    · constructor
      · intro hx
        exact absurd hx (by decide)
      · intro hx
        exact absurd hx ht
  · intro hne
    rcases ParseLanguage_cases lower X with he | hu
    · exact absurd he hne
    · exact hu
  · rcases ParseLanguage_cases lower X with he | hu
    · rw [he]; decide
    · rw [hu]; decide
  · obtain ⟨hen, hua⟩ := ToLower_ascii_word lower hascii
    rcases ParseLanguage_cases lower X with he | hu
    · rw [he]
      simp [ParseLanguage, LangEN, hen]
    · rw [hu]
      simp only [ParseLanguage, LangUA, hua]
      decide

theorem handleLanguageSelection_stores_parsed_witness :
    (handleLanguageSelection asciiLower staffHandlers sampleHandlerEnv "lang_ENG" 70 1
        sampleUser).2.1.Language = ParseLanguage asciiLower "ENG" ∧
    ParseLanguage asciiLower "ENG" = "en" :=
  ⟨(handleLanguageSelection_stores_parsed asciiLower staffHandlers sampleHandlerEnv "ENG" 70 1
      sampleUser (fun _ _ => rfl)).1, by decide⟩

/-! ## Theorems: accepted close times and the status updates -/

theorem Format1504_length (t : Time) : t.Format1504.length = 5 := rfl

/-- C26 (the code at the failing input): `isValidTimeFormat` accepts the text `9:5`,
whose parts are the integers 9 and 5, but at no time of day does the `15:04` rendering
of the clock make `timeMatches` true against it, because that rendering always has two
digits on each side of the colon: a close time stored as `9:5` never fires. -/
theorem isValidTimeFormat_accepts_unpadded_time :
    isValidTimeFormat "9:5" = true ∧
    ∀ t : Time, timeMatches t.Format1504 "9:5" = false := by
  refine ⟨by decide, ?_⟩
  intro t
  cases hm : timeMatches t.Format1504 "9:5" with
  | false => rfl
  | true =>
    have heq := (timeMatches_Format1504 t "9:5").1 hm
    have hl := Format1504_length t
    rw [heq] at hl
    exact absurd hl (by decide)

/-- C27: `UpdateOpenStatus` issues one update that, once the store accepts it, sets
both the open flag and the technical flag to `isOpen` and records the display name of
the user as `updatedBy`; `UpdateTechnicalStatus` issues one that sets the technical
flag (and `updatedBy`) and leaves the open flag unchanged; neither touches the
auto-close settings. In `handleOpenStatusUpdate` with payload `open_<x>` the value of
`isOpen` written is true exactly when `x` is the string `true`. -/
theorem UpdateOpenStatus_sets_both_flags (db : DB) (h : BotHandlers) (env : HandlerEnv)
    (isOpen technicalStatus : Bool) (user : User) (x : String) (chatID messageID : Int)
    (hopen : env.faults.updateOpenStatus = none)
    (htech : env.faults.updateTechnicalStatus = none) :
    (∃ db', db.UpdateOpenStatus env isOpen user = .ok db' ∧
      db'.status.IsOpen = isOpen ∧ db'.status.TechnicalStatus = isOpen ∧
      db'.status.UpdatedBy = user.GetDisplayName ∧ db'.settings = db.settings) ∧
    (∃ db', db.UpdateTechnicalStatus env technicalStatus user = .ok db' ∧
      db'.status.TechnicalStatus = technicalStatus ∧ db'.status.IsOpen = db.status.IsOpen ∧
      db'.status.UpdatedBy = user.GetDisplayName ∧ db'.settings = db.settings) ∧
    ((handleOpenStatusUpdate h env ("open_" ++ x) chatID messageID user).1.db.status
      = { h.db.status with IsOpen := decide (x = "true"), TechnicalStatus := decide (x = "true"),
                           UpdatedAt := env.stamp, UpdatedBy := user.GetDisplayName }) ∧
    ((handleOpenStatusUpdate h env ("open_" ++ x) chatID messageID user).1.db.status.IsOpen = true
      ↔ x = "true") := by
  have hstatus : (handleOpenStatusUpdate h env ("open_" ++ x) chatID messageID user).1.db.status
      = { h.db.status with IsOpen := decide (x = "true"), TechnicalStatus := decide (x = "true"),
                           UpdatedAt := env.stamp, UpdatedBy := user.GetDisplayName } := by
    unfold handleOpenStatusUpdate DB.UpdateOpenStatus DB.UpdateAutoCloseLastUser
    cases hl : env.faults.updateAutoCloseLastUser <;> simp [hopen, hl, TrimPrefix_append]
  refine ⟨?_, ?_, hstatus, ?_⟩
  · simp [DB.UpdateOpenStatus, hopen]
  · simp [DB.UpdateTechnicalStatus, htech]
  · rw [hstatus]
    simp

theorem UpdateOpenStatus_sets_both_flags_witness :
    (handleOpenStatusUpdate sampleHandlers sampleHandlerEnv ("open_" ++ "false") 70 1
        managerUser).1.db.status.IsOpen = false ∧ sampleStatus.IsOpen = true := by
  have hk := (UpdateOpenStatus_sets_both_flags sampleDB sampleHandlers sampleHandlerEnv false
    false managerUser "false" 70 1 rfl rfl).2.2.1
  rw [hk]
  decide

/-! ## Theorems: the pager keyboard -/

theorem digitChar_toNat (d : Nat) : (digitChar d).toNat - 48 = d % 10 := by
  unfold digitChar
  have h : d % 10 < 10 := Nat.mod_lt _ (by decide)
  generalize d % 10 = k at h
  interval_cases k <;> decide

theorem parseDigits_append_single (ds : List Char) (c : Char) (acc n : Nat)
    (h : parseDigits ds acc = some n) (hc : c.isDigit = true) :
    parseDigits (ds ++ [c]) acc = some (n * 10 + (c.toNat - 48)) := by
  induction ds generalizing acc with
  | nil =>
    simp only [parseDigits, Option.some.injEq] at h
    simp [parseDigits, hc, h]
  | cons d ds ih =>
    simp only [parseDigits, List.cons_append] at h ⊢
    by_cases hd : d.isDigit = true
    · simp only [hd, if_true] at h ⊢
      exact ih _ h
    · simp [hd] at h

theorem parseDigits_natDigitsAux (fuel n : Nat) (h : n < fuel) :
    parseDigits (natDigitsAux fuel n) 0 = some n := by
  induction fuel generalizing n with
  | zero => omega
  | succ fuel ih =>
    unfold natDigitsAux
    by_cases hn : n < 10
    · simp only [hn, if_true, parseDigits, digitChar_isDigit, digitChar_toNat]
      simp [Nat.mod_eq_of_lt hn]
    · simp only [hn, if_false]
      have hq : n / 10 < fuel := by omega
      rw [parseDigits_append_single _ _ _ _ (ih _ hq) (digitChar_isDigit n), digitChar_toNat]
      congr 1
      omega

theorem natDigitsAux_ne_nil (fuel n : Nat) : natDigitsAux (fuel + 1) n ≠ [] := by
  unfold natDigitsAux
  split_ifs <;> simp

theorem Atoi_of_digits (ds : List Char) (n : Nat) (hne : ds ≠ [])
    (hp : parseDigits ds 0 = some n) (hlt : n < 2 ^ 63) :
    Atoi (String.mk ds) = some (n : Int) := by
  have hall := parseDigits_all_digits ds 0 n hp
  cases ds with
  | nil => exact absurd rfl hne
  | cons c cs =>
    have hc : c.isDigit = true := by
      simp only [List.all_cons, Bool.and_eq_true] at hall
      exact hall.1
    have hm : c ≠ '-' := by
      intro he
      rw [he] at hc
      exact absurd hc (by decide)
    have hpl : c ≠ '+' := by
      intro he
      rw [he] at hc
      exact absurd hc (by decide)
    unfold Atoi
    split
    · rename_i heq
      cases heq
    · rename_i heq
      simp only [List.cons.injEq] at heq
      exact absurd heq.1 hm
    · rename_i heq
      simp only [List.cons.injEq] at heq
      exact absurd heq.1 hpl
    · simp only [hp]
      simp only [hlt, if_true]

theorem Atoi_Itoa (i : Int) (h0 : 0 ≤ i) (h1 : i < 2 ^ 63) : Atoi (Itoa i) = some i := by
  have hneg : ¬ i < 0 := by omega
  unfold Itoa
  simp only [hneg, if_false]
  have hp := parseDigits_natDigitsAux (i.natAbs + 1) i.natAbs (by omega)
  have hlt : i.natAbs < 2 ^ 63 := by omega
  rw [Atoi_of_digits _ _ (natDigitsAux_ne_nil _ _) hp hlt]
  congr 1
  omega

theorem HasPrefix_prev_next (s : String) :
    HasPrefix ("idea_next_" ++ s) "idea_prev_" = false ∧
    HasPrefix ("idea_prev_" ++ s) "idea_next_" = false ∧
    HasPrefix ("idea_delete_" ++ s) "idea_prev_" = false ∧
    HasPrefix ("idea_delete_" ++ s) "idea_next_" = false := by
  refine ⟨?_, ?_, ?_, ?_⟩ <;> simp [HasPrefix, List.isPrefixOf]

/-- C28: the keyboard `generateIdeaKeyboard i n` has a previous-idea button exactly
when `i > 0` and a next-idea button exactly when `i < n - 1`; and when it was generated
for position `i` of a list of `n` ideas, feeding the payload of its previous-idea
button into `handleIdeaNavigation` over a list of that length shows the idea at index
`i - 1` and the payload of its next-idea button shows the idea at index `i + 1`. -/
theorem generateIdeaKeyboard_round_trip (h : BotHandlers) (env : HandlerEnv)
    (ideas : List Idea) (i ideaID chatID messageID : Int)
    (hfetch : h.db.GetAllIdeas env = .ok ideas)
    (hlen : (ideas.length : Int) < 2 ^ 63 - 1) (h0 : 0 ≤ i) (h1 : i < ideas.length) :
    ((∃ b ∈ (generateIdeaKeyboard i ideas.length ideaID).flatten,
        HasPrefix b.Callback "idea_prev_" = true) ↔ i > 0) ∧
    ((∃ b ∈ (generateIdeaKeyboard i ideas.length ideaID).flatten,
        HasPrefix b.Callback "idea_next_" = true) ↔ i < (ideas.length : Int) - 1) ∧
    (∀ b ∈ (generateIdeaKeyboard i ideas.length ideaID).flatten,
      HasPrefix b.Callback "idea_prev_" = true →
      ∃ idea, ideas[(i - 1).toNat]? = some idea ∧
        handleIdeaNavigation h env b.Callback chatID messageID
          = (h, [Out.showIdea chatID messageID (i - 1) ideas.length idea
                  (generateIdeaKeyboard (i - 1) ideas.length idea.ID)])) ∧
    (∀ b ∈ (generateIdeaKeyboard i ideas.length ideaID).flatten,
      HasPrefix b.Callback "idea_next_" = true →
      ∃ idea, ideas[(i + 1).toNat]? = some idea ∧
        handleIdeaNavigation h env b.Callback chatID messageID
          = (h, [Out.showIdea chatID messageID (i + 1) ideas.length idea
                  (generateIdeaKeyboard (i + 1) ideas.length idea.ID)])) := by
  obtain ⟨hpn, hnp, hdp, hdn⟩ := HasPrefix_prev_next (Itoa i)
  obtain ⟨_, _, hdp2, hdn2⟩ := HasPrefix_prev_next (Itoa ideaID)
  have hbp : HasPrefix "back_to_menu" "idea_prev_" = false := by decide
  have hbn : HasPrefix "back_to_menu" "idea_next_" = false := by decide
  have hat : AtoiValue (Itoa i) = i := AtoiValue_of_Atoi _ _ (Atoi_Itoa i h0 (by omega))
  have hwp : wrapInt (i - 1) = i - 1 := by unfold wrapInt; omega
  have hwn : wrapInt (i + 1) = i + 1 := by unfold wrapInt; omega
  have hmem : ∀ b ∈ (generateIdeaKeyboard i ideas.length ideaID).flatten,
      (i > 0 ∧ b.Callback = "idea_prev_" ++ Itoa i) ∨
      (i < (ideas.length : Int) - 1 ∧ b.Callback = "idea_next_" ++ Itoa i) ∨
      b.Callback = "idea_delete_" ++ Itoa ideaID ∨ b.Callback = "back_to_menu" := by
    intro b hb
    unfold generateIdeaKeyboard at hb
    by_cases hp : i > 0 <;> by_cases hn : i < (ideas.length : Int) - 1 <;>
      simp [hp, hn] at hb <;> aesop
  refine ⟨⟨?_, ?_⟩, ⟨?_, ?_⟩, ?_, ?_⟩
  · rintro ⟨b, hb, hpre⟩
    rcases hmem b hb with ⟨hp, _⟩ | ⟨_, hc⟩ | hc | hc
    · exact hp
    · rw [hc, hpn] at hpre; cases hpre
    · rw [hc, hdp2] at hpre; cases hpre
    · rw [hc, hbp] at hpre; cases hpre
  · intro hp
    refine ⟨{ TextKey := "⬅️", Callback := "idea_prev_" ++ Itoa i }, ?_, HasPrefix_append _ _⟩
    unfold generateIdeaKeyboard
    by_cases hn : i < (ideas.length : Int) - 1 <;> simp [hp, hn]
  · rintro ⟨b, hb, hpre⟩
    rcases hmem b hb with ⟨_, hc⟩ | ⟨hn, _⟩ | hc | hc
    · rw [hc, hnp] at hpre; cases hpre
    · exact hn
    · rw [hc, hdn2] at hpre; cases hpre
    · rw [hc, hbn] at hpre; cases hpre
  · intro hn
    refine ⟨{ TextKey := "➡️", Callback := "idea_next_" ++ Itoa i }, ?_, HasPrefix_append _ _⟩
    unfold generateIdeaKeyboard
    by_cases hp : i > 0 <;> simp [hp, hn]
  · intro b hb hpre
    rcases hmem b hb with ⟨hp, hc⟩ | ⟨_, hc⟩ | hc | hc
    · obtain ⟨idea, hidea, hshow⟩ :=
        showIdea_in_range chatID messageID ideas (i - 1) (by omega) (by omega)
      refine ⟨idea, hidea, ?_⟩
      simp only [handleIdeaNavigation, hfetch, hc, navigationIndex_prev, hat, hwp, hshow]
    · rw [hc, hpn] at hpre; cases hpre
    · rw [hc, hdp2] at hpre; cases hpre
    · rw [hc, hbp] at hpre; cases hpre
  · intro b hb hpre
    rcases hmem b hb with ⟨_, hc⟩ | ⟨hn, hc⟩ | hc | hc
    · rw [hc, hnp] at hpre; cases hpre
    · obtain ⟨idea, hidea, hshow⟩ :=
        showIdea_in_range chatID messageID ideas (i + 1) (by omega) (by omega)
      refine ⟨idea, hidea, ?_⟩
      simp only [handleIdeaNavigation, hfetch, hc, navigationIndex_next, hat, hwn, hshow]
    · rw [hc, hdn2] at hpre; cases hpre
    · rw [hc, hbn] at hpre; cases hpre

theorem generateIdeaKeyboard_round_trip_witness :
    ∃ idea, twoIdeasDB.ideas.reverse[((0 : Int) + 1).toNat]? = some idea ∧
      handleIdeaNavigation pagerHandlers sampleHandlerEnv "idea_next_0" 70 1
        = (pagerHandlers, [Out.showIdea 70 1 (0 + 1) 2 idea
            (generateIdeaKeyboard (0 + 1) 2 idea.ID)]) :=
  (generateIdeaKeyboard_round_trip pagerHandlers sampleHandlerEnv twoIdeasDB.ideas.reverse 0 2
    70 1 rfl (by decide) (by decide) (by decide)).2.2.2
    { TextKey := "➡️", Callback := "idea_next_0" } (by decide) (by decide)

/-! ## Theorems: auto-close settings handlers -/

theorem GetSettings_ok (db : DB) (env : HandlerEnv) (hread : env.faults.getAutoCloseSettings = none) :
    GetSettings db env = some db.settings := by
  simp [GetSettings, DB.GetAutoCloseSettings, StoreFaults.toFaults, hread]

theorem handleAutoCloseToggle_db (h : BotHandlers) (env : HandlerEnv) (chatID messageID : Int)
    (hread : env.faults.getAutoCloseSettings = none)
    (hwrite : env.faults.updateAutoCloseSettings = none) :
    (handleAutoCloseToggle h env chatID messageID).1
      = { h with db := { h.db with settings :=
            { h.db.settings with Enabled := !h.db.settings.Enabled } } } := by
  simp [handleAutoCloseToggle, GetSettings_ok _ _ hread, DB.UpdateAutoCloseSettings, hwrite]

/-- C29 (as amended): when the settings read and the settings write succeed,
`handleAutoCloseToggle` negates `enabled` and keeps `closeTime`, `keysToLobby` and
`lastStatusBy` as they were, so that toggling twice restores the original settings;
and `handleAutoCloseKeysUpdate` with payload `autoclose_keys_<x>` sets `keysToLobby`
to whether `x` is the string `lobby` and keeps the other fields. Whether or not the
store calls succeed, neither handler changes `lastStatusBy`. `UpdateLastUser`, once
accepted, changes `lastStatusBy` and nothing else. -/
theorem handleAutoClose_updates (h : BotHandlers) (env : HandlerEnv) (x name : String)
    (chatID messageID : Int) :
    (env.faults.getAutoCloseSettings = none → env.faults.updateAutoCloseSettings = none →
      (handleAutoCloseToggle h env chatID messageID).1.db.settings
        = { h.db.settings with Enabled := !h.db.settings.Enabled } ∧
      (handleAutoCloseToggle (handleAutoCloseToggle h env chatID messageID).1 env chatID
        messageID).1.db = h.db ∧
      (handleAutoCloseKeysUpdate h env ("autoclose_keys_" ++ x) chatID messageID).1.db.settings
        = { h.db.settings with KeysToLobby := decide (x = "lobby") }) ∧
    (handleAutoCloseToggle h env chatID messageID).1.db.settings.LastStatusBy
      = h.db.settings.LastStatusBy ∧
    (handleAutoCloseKeysUpdate h env ("autoclose_keys_" ++ x) chatID messageID).1.db.settings.LastStatusBy
      = h.db.settings.LastStatusBy ∧
    (env.faults.updateAutoCloseLastUser = none →
      h.db.UpdateAutoCloseLastUser env name
        = .ok { h.db with settings := { h.db.settings with LastStatusBy := name } }) := by
  refine ⟨?_, ?_, ?_, ?_⟩
  · intro hread hwrite
    refine ⟨?_, ?_, ?_⟩
    · rw [handleAutoCloseToggle_db h env chatID messageID hread hwrite]
    · rw [handleAutoCloseToggle_db _ env chatID messageID hread hwrite,
        handleAutoCloseToggle_db h env chatID messageID hread hwrite]
      simp
    · simp [handleAutoCloseKeysUpdate, GetSettings_ok _ _ hread, DB.UpdateAutoCloseSettings,
        hwrite, TrimPrefix_append]
  · unfold handleAutoCloseToggle DB.UpdateAutoCloseSettings
    cases hg : GetSettings h.db env <;> cases hw : env.faults.updateAutoCloseSettings <;> simp
  · unfold handleAutoCloseKeysUpdate DB.UpdateAutoCloseSettings
    cases hg : GetSettings h.db env <;> cases hw : env.faults.updateAutoCloseSettings <;> simp
  · intro hl
    simp [DB.UpdateAutoCloseLastUser, hl]

theorem handleAutoClose_updates_witness :
    (handleAutoCloseToggle sampleHandlers sampleHandlerEnv 70 1).1.db.settings
      = { sampleSettings with Enabled := !sampleSettings.Enabled } :=
  ((handleAutoClose_updates sampleHandlers sampleHandlerEnv "lobby" "@bob" 70 1).1 rfl rfl).1

/-- C29 (counterexample to the claim as worded): when the settings read fails,
`handleAutoCloseToggle` answers with the generic error reply and `enabled` is not
negated; likewise `handleAutoCloseKeysUpdate` with payload `autoclose_keys_lobby`
leaves `keysToLobby` false. -/
theorem handleAutoCloseToggle_read_failure :
    (handleAutoCloseToggle sampleHandlers settingsReadFailsEnv 70 1).1.db.settings.Enabled
      = sampleHandlers.db.settings.Enabled ∧
    (handleAutoCloseToggle sampleHandlers settingsReadFailsEnv 70 1).2
      = [.editMessageT 70 1 "error_generic" []] ∧
    sampleHandlers.db.settings.KeysToLobby = false ∧
    (handleAutoCloseKeysUpdate sampleHandlers settingsReadFailsEnv "autoclose_keys_lobby" 70
      1).1.db.settings.KeysToLobby = false := by
  decide

/-! ## Theorems: the empty promotion target -/

/-- C30: in the `waiting_username` state with a valid tier stored, a text that is
empty after trimming changes nothing: the handler state (store and session registry
alike) is returned as it was and the only output is the empty-username reply. The next
text message of the user that still finds the session (before it expires) is therefore
dispatched to the same `waiting_username` continuation, as the promotion target. -/
theorem handleUserState_empty_username_retained (h : BotHandlers) (env : HandlerEnv)
    (message : Message) (state : UserState) (user : User) (rightsStr : String) (rights : Int)
    (hs : state.State = "waiting_username")
    (hd : state.Data.lookup "rights" = some rightsStr)
    (ha : Atoi rightsStr = some rights)
    (hv : Rights.IsValid rights = true)
    (ht : TrimSpace message.Text = "") :
    handleUserState h env message state user
      = (h, [.sendMessageT message.ChatID "error_empty_username" []]) ∧
    (∀ (env2 : HandlerEnv) (next : Message) (db2 : DB) (user2 : User),
      next.FromID = message.FromID →
      next.Command ≠ "start" → next.Command ≠ "help" → next.Command ≠ "cancel" →
      GetOrCreateUser h.db env2 next.FromID next.FromUserName next.FromFirstName
        next.FromLastName = .ok (db2, user2) →
      getUserState h.userStates env2.now message.FromID = some state →
      handleMessage (handleUserState h env message state user).1 env2 next
        = handleUserState { h with db := db2 } env2 next state user2) := by
  have hfirst : handleUserState h env message state user
      = (h, [.sendMessageT message.ChatID "error_empty_username" []]) := by
    simp [handleUserState, hs, hd, ha, hv, ht]
  refine ⟨hfirst, ?_⟩
  intro env2 next db2 user2 hid hc1 hc2 hc3 hlookup hstate
  rw [hfirst]
  rw [hid] at hlookup
  simp [handleMessage, hlookup, hc1, hc2, hc3, hid, hstate]

theorem handleUserState_empty_username_retained_witness :
    handleUserState usernameHandlers sampleHandlerEnv { usernameMessage with Text := "   " }
        usernameSession adminUser
      = (usernameHandlers, [.sendMessageT 90 "error_empty_username" []]) :=
  (handleUserState_empty_username_retained usernameHandlers sampleHandlerEnv
    { usernameMessage with Text := "   " } usernameSession adminUser "3" 3 rfl rfl
    (by decide) (by decide) (by decide)).1

/-! ## Theorems: the open announcement -/

theorem openNotificationLoop_eq (env : HandlerEnv) (users : List User) :
    (openNotificationLoop env users).2
      = users.map (fun u => Out.botSend u.TelegramID openAnnouncement) ∧
    (openNotificationLoop env users).1
      = (users.filter (fun u => !env.sendFails u.TelegramID)).length := by
  induction users with
  | nil => simp [openNotificationLoop]
  | cons u rest ih =>
    by_cases hf : env.sendFails u.TelegramID = true
    · simp [openNotificationLoop, ih.1, ih.2, hf]
    · simp [openNotificationLoop, ih.1, ih.2, hf]

/-- C25 (as amended): when a Manager sets the status to open and the store accepts the
update, the handler launches the broadcast of the open announcement as a detached
goroutine, then sends the reply to the actor, then launches the menu refresh: the
broadcast does not block the reply (the handler itself makes none of its sends), but
it is launched before the reply is sent. Setting the status to closed (any payload
other than `open_true`) launches no broadcast, nor does a failed update. The goroutine
runs `SendOpenNotification`, which, when its recipient lookup completes, sends the
fixed announcement to exactly the users who opted into notifications. -/
theorem handleOpenStatusUpdate_broadcast (h : BotHandlers) (env : HandlerEnv) (x : String)
    (chatID messageID : Int) (user : User) (db : DB) :
    (env.faults.updateOpenStatus = none → x = "true" →
      (handleOpenStatusUpdate h env ("open_" ++ x) chatID messageID user).2
        = [.goSendOpenNotification, .editMessageT chatID messageID "status_changed_open" [],
           .goMenuRefresh chatID messageID]) ∧
    (env.faults.updateOpenStatus = none → x ≠ "true" →
      (handleOpenStatusUpdate h env ("open_" ++ x) chatID messageID user).2
        = [.editMessageT chatID messageID "status_changed_closed" [],
           .goMenuRefresh chatID messageID]) ∧
    (Out.goSendOpenNotification
        ∈ (handleOpenStatusUpdate h env ("open_" ++ x) chatID messageID user).2
      ↔ x = "true" ∧ env.faults.updateOpenStatus = none) ∧
    (∀ c t, Out.botSend c t
      ∉ (handleOpenStatusUpdate h env ("open_" ++ x) chatID messageID user).2) ∧
    (env.faults.getUsersWithNotifications = none →
      env.faults.getUsersWithNotificationsStep = none →
      (SendOpenNotification db env).2
        = (db.users.filter (fun u => u.NotificationsEnabled)).map
            (fun u => Out.botSend u.TelegramID openAnnouncement)) := by
  have htrim : TrimPrefix ("open_" ++ x) "open_" = x := TrimPrefix_append "open_" x
  have ht : TrimPrefix "open_true" "open_" = "true" := by decide
  refine ⟨?_, ?_, ?_, ?_, ?_⟩
  · intro hf hx
    simp [handleOpenStatusUpdate, DB.UpdateOpenStatus, hf, hx, ht]
  · intro hf hx
    simp [handleOpenStatusUpdate, DB.UpdateOpenStatus, hf, htrim, hx]
  · unfold handleOpenStatusUpdate DB.UpdateOpenStatus
    cases hf : env.faults.updateOpenStatus with
    | some msg => simp [htrim]
    | none =>
      by_cases hx : x = "true"
      · simp [hx, ht]
      · simp [htrim, hx]
  · intro c t
    unfold handleOpenStatusUpdate DB.UpdateOpenStatus
    cases hf : env.faults.updateOpenStatus with
    | some msg => simp [htrim]
    | none =>
      by_cases hx : x = "true"
      · simp [hx, ht]
      · simp [htrim, hx]
  · intro hf hs
    simp [SendOpenNotification, DB.GetUsersWithNotifications, hf, hs,
      (openNotificationLoop_eq env _).1]

theorem handleOpenStatusUpdate_broadcast_witness :
    (handleOpenStatusUpdate staffHandlers sampleHandlerEnv ("open_" ++ "false") 80 1
        managerUser).2
      = [.editMessageT 80 1 "status_changed_closed" [], .goMenuRefresh 80 1] ∧
    (SendOpenNotification
        { staffDB with users := [{ sampleUser with NotificationsEnabled := true }, managerUser] }
        sampleHandlerEnv).2
      = [Out.botSend 7 openAnnouncement] :=
  ⟨(handleOpenStatusUpdate_broadcast staffHandlers sampleHandlerEnv "false" 80 1 managerUser
      staffDB).2.1 rfl (by decide),
   (handleOpenStatusUpdate_broadcast staffHandlers sampleHandlerEnv "false" 80 1 managerUser
      { staffDB with users := [{ sampleUser with NotificationsEnabled := true }, managerUser] }
      ).2.2.2.2 rfl rfl⟩

/-- C25 (counterexample to the claim as worded): when the Manager `bob` sets the
status to open, the handler first launches the goroutine of the broadcast and only
then sends the reply to him: the broadcast is not held back until the reply has been
sent. -/
theorem handleOpenStatusUpdate_launches_before_reply :
    managerUser.Rights = RightsManager ∧
    (handleOpenStatusUpdate staffHandlers sampleHandlerEnv "open_true" 80 1 managerUser).2
      = [.goSendOpenNotification, .editMessageT 80 1 "status_changed_open" [],
         .goMenuRefresh 80 1] := by
  decide

end Lunobot
